import Mathlib

/-
Verification of the siphon reverse-tunnel broker.

This file gives a shallow embedding, in Lean 4, of the parts of the
siphon repository that the verified claims are about:

* `siphon-protocol/src/messages.rs` — the protocol message types
  (`ClientMessage`, `ServerMessage`, `TunnelType`) together with an
  executable model of their serde_json wire encoding (internally
  tagged with `"type"`, snake_case, compact output).  The JSON model
  covers strings made of printable ASCII characters that need no JSON
  escaping (no `"` or `\`, no control characters); serde_json produces
  exactly this output for such strings.  The deserializer models
  `serde_json::from_slice` restricted to the canonical encoding.
* `siphon-protocol/src/codec.rs` — the length-prefixed `TunnelCodec`
  (`encode` / `decode`), generic over the payload (de)serializer just
  as the Rust codec is generic over `T`.
* `siphon-server/src/state.rs` — the stream-id counters and registries.
* `siphon-server/src/control_plane.rs` — subdomain validation, the
  tunnel-negotiation path of `handle_connection`, the read/decode
  loop, and the connection-teardown path.  External effects (DNS
  provider, port allocator, concurrent router contents) enter as
  explicit arguments; their outcomes are oracle inputs.
* `siphon-server/src/http_plane.rs` — `extract_subdomain` and
  `handle_request`, with the transport outcomes (send result, awaited
  response) as oracle inputs.

Bytes are modelled as `Nat` (each value < 256 where it matters);
`u64`/`u16` fields are `Nat` with explicit bounds in the well-formedness
predicates; wrapping of the `u64` stream counters is modelled with
`% 2^64`.
-/

namespace Siphon

/-! ### Protocol messages (`siphon-protocol/src/messages.rs`) -/

/-- `TunnelType` from `messages.rs`: the kind of tunnel requested. -/
inductive TunnelType where
  | Http
  | Tcp
deriving DecidableEq, Repr

/-- `ClientMessage` from `messages.rs`.  `Vec<u8>` fields become
`List Nat`, `u64`/`u16` become `Nat` (bounds live in `WfClient`). -/
inductive ClientMessage where
  | RequestTunnel (subdomain : Option String) (tunnel_type : TunnelType) (local_port : Nat)
  | HttpResponse (stream_id : Nat) (status : Nat) (headers : List (String × String)) (body : List Nat)
  | TcpData (stream_id : Nat) (data : List Nat)
  | TcpClose (stream_id : Nat)
  | Ping (timestamp : Nat)
deriving DecidableEq, Repr

/-- `ServerMessage` from `messages.rs`. -/
inductive ServerMessage where
  | TunnelEstablished (subdomain : String) (url : String) (port : Option Nat)
  | TunnelDenied (reason : String)
  | HttpRequest (stream_id : Nat) (method : String) (uri : String) (headers : List (String × String)) (body : List Nat)
  | TcpConnect (stream_id : Nat)
  | TcpData (stream_id : Nat) (data : List Nat)
  | TcpClose (stream_id : Nat)
  | Pong (timestamp : Nat)
deriving DecidableEq, Repr

/-! ### Decimal integers, as serde_json prints unsigned numbers -/

/-- The ASCII digit character for `d` (meaningful for `d < 10`). -/
def digitCh (d : Nat) : Char := Char.ofNat (48 + d)

/-- Numeric value of an ASCII digit character. -/
def digitVal (c : Char) : Nat := c.toNat - 48

/-- Fuel-driven decimal printer (most significant digit first); the
fuel only bounds recursion depth, `natChars` supplies enough. -/
def natToCharsCore : Nat → Nat → List Char
  | 0, _ => []
  | fuel + 1, n => if n < 10 then [digitCh n] else natToCharsCore fuel (n / 10) ++ [digitCh (n % 10)]

/-- Decimal digits of `n`, exactly as serde_json prints an unsigned
integer (`0` prints as `"0"`). -/
def natChars (n : Nat) : List Char := natToCharsCore (n + 1) n

/-- Greedy digit scan: longest digit run and the rest. -/
def takeDigits : List Char → List Char × List Char
  | [] => ([], [])
  | c :: cs =>
    if c.isDigit then
      let p := takeDigits cs
      (c :: p.1, p.2)
    else ([], c :: cs)

/-- Accumulating decimal reader. -/
def digitsToNat (acc : Nat) : List Char → Nat
  | [] => acc
  | c :: cs => digitsToNat (acc * 10 + digitVal c) cs

/-- Parse a decimal number (at least one digit). -/
def parseNum (s : List Char) : Option (Nat × List Char) :=
  match takeDigits s with
  | ([], _) => none
  | (ds, rest) => some (digitsToNat 0 ds, rest)

/-- Does the input start with a digit? (used to state that a number's
serialization is followed by a non-digit). -/
def digitHead : List Char → Bool
  | [] => false
  | c :: _ => c.isDigit

/-! ### JSON text model of the serde_json wire encoding

serde_json's compact output for the two internally tagged message enums:
the `"type"` tag first, then the variant's fields in declaration order,
strings quoted, `Vec<u8>` as an array of numbers, `Vec<(String,String)>`
as an array of two-element arrays, `Option` as `null` or the value.
Strings are modelled unescaped; the well-formedness predicates below
restrict string fields to printable ASCII without `"` or `\`, for which
serde_json emits exactly the unescaped text. -/

/-- A JSON string literal for a plain string: `"…"`. -/
def jstr (s : String) : List Char := '"' :: s.data ++ ['"']

/-- Body of a nonempty JSON number array, up to and including the `]`. -/
def jsonNatSeqBody : List Nat → List Char
  | [] => []
  | [n] => natChars n ++ "]".data
  | n :: ns => natChars n ++ ",".data ++ jsonNatSeqBody ns

/-- A `Vec<u8>` as serde_json prints it: `[1,2,3]`. -/
def jsonNatSeq (ns : List Nat) : List Char :=
  match ns with
  | [] => "[]".data
  | _ => "[".data ++ jsonNatSeqBody ns

/-- A `(String, String)` tuple as serde_json prints it: `["k","v"]`. -/
def jsonPair (p : String × String) : List Char :=
  "[".data ++ jstr p.1 ++ ",".data ++ jstr p.2 ++ "]".data

/-- Body of a nonempty JSON header array, up to and including the `]`. -/
def jsonPairSeqBody : List (String × String) → List Char
  | [] => []
  | [p] => jsonPair p ++ "]".data
  | p :: ps => jsonPair p ++ ",".data ++ jsonPairSeqBody ps

/-- A `Vec<(String,String)>` as serde_json prints it. -/
def jsonPairSeq (ps : List (String × String)) : List Char :=
  match ps with
  | [] => "[]".data
  | _ => "[".data ++ jsonPairSeqBody ps

/-- An `Option<String>` field value: `null` or a string literal. -/
def jsonOptStr : Option String → List Char
  | none => "null".data
  | some s => jstr s

/-- An `Option<u16>` field value: `null` or a number. -/
def jsonOptNat : Option Nat → List Char
  | none => "null".data
  | some n => natChars n

/-- `TunnelType` with `rename_all = "snake_case"`: `"http"` / `"tcp"`. -/
def jsonTT : TunnelType → List Char
  | .Http => "\"http\"".data
  | .Tcp => "\"tcp\"".data

/-- serde_json output for a `ClientMessage`, written in the chunk
structure the parser consumes (the concatenation is exactly the compact
serde_json text). -/
def jsonClient : ClientMessage → List Char
  | .RequestTunnel sub tt port =>
      "\x7b\"type\":\"".data ++ "request_tunnel".data ++ '"' ::
      (",\"subdomain\":".data ++ jsonOptStr sub ++
       ",\"tunnel_type\":".data ++ jsonTT tt ++
       ",\"local_port\":".data ++ natChars port ++ "\x7d".data)
  | .HttpResponse sid status headers body =>
      "\x7b\"type\":\"".data ++ "http_response".data ++ '"' ::
      (",\"stream_id\":".data ++ natChars sid ++
       ",\"status\":".data ++ natChars status ++
       ",\"headers\":".data ++ jsonPairSeq headers ++
       ",\"body\":".data ++ jsonNatSeq body ++ "\x7d".data)
  | .TcpData sid data =>
      "\x7b\"type\":\"".data ++ "tcp_data".data ++ '"' ::
      (",\"stream_id\":".data ++ natChars sid ++
       ",\"data\":".data ++ jsonNatSeq data ++ "\x7d".data)
  | .TcpClose sid =>
      "\x7b\"type\":\"".data ++ "tcp_close".data ++ '"' ::
      (",\"stream_id\":".data ++ natChars sid ++ "\x7d".data)
  | .Ping ts =>
      "\x7b\"type\":\"".data ++ "ping".data ++ '"' ::
      (",\"timestamp\":".data ++ natChars ts ++ "\x7d".data)

/-- serde_json output for a `ServerMessage`. -/
def jsonServer : ServerMessage → List Char
  | .TunnelEstablished sub url port =>
      "\x7b\"type\":\"".data ++ "tunnel_established".data ++ '"' ::
      (",\"subdomain\":".data ++ jstr sub ++
       ",\"url\":".data ++ jstr url ++
       ",\"port\":".data ++ jsonOptNat port ++ "\x7d".data)
  | .TunnelDenied reason =>
      "\x7b\"type\":\"".data ++ "tunnel_denied".data ++ '"' ::
      (",\"reason\":".data ++ jstr reason ++ "\x7d".data)
  | .HttpRequest sid method uri headers body =>
      "\x7b\"type\":\"".data ++ "http_request".data ++ '"' ::
      (",\"stream_id\":".data ++ natChars sid ++
       ",\"method\":".data ++ jstr method ++
       ",\"uri\":".data ++ jstr uri ++
       ",\"headers\":".data ++ jsonPairSeq headers ++
       ",\"body\":".data ++ jsonNatSeq body ++ "\x7d".data)
  | .TcpConnect sid =>
      "\x7b\"type\":\"".data ++ "tcp_connect".data ++ '"' ::
      (",\"stream_id\":".data ++ natChars sid ++ "\x7d".data)
  | .TcpData sid data =>
      "\x7b\"type\":\"".data ++ "tcp_data".data ++ '"' ::
      (",\"stream_id\":".data ++ natChars sid ++
       ",\"data\":".data ++ jsonNatSeq data ++ "\x7d".data)
  | .TcpClose sid =>
      "\x7b\"type\":\"".data ++ "tcp_close".data ++ '"' ::
      (",\"stream_id\":".data ++ natChars sid ++ "\x7d".data)
  | .Pong ts =>
      "\x7b\"type\":\"".data ++ "pong".data ++ '"' ::
      (",\"timestamp\":".data ++ natChars ts ++ "\x7d".data)

/-! ### Parsers for the canonical encoding (model of `serde_json::from_slice`
restricted to the canonical compact text the serializer produces) -/

/-- Consume an exact literal. -/
def expectLit : List Char → List Char → Option (List Char)
  | [], s => some s
  | _ :: _, [] => none
  | c :: cs, d :: ds => if c = d then expectLit cs ds else none

/-- Read characters up to an unescaped closing quote. -/
def takeQuoted : List Char → Option (List Char × List Char)
  | [] => none
  | c :: cs =>
    if c = '"' then some ([], cs)
    else (takeQuoted cs).map (fun p => (c :: p.1, p.2))

/-- Parse a JSON string literal. -/
def parseQuoted : List Char → Option (String × List Char)
  | '"' :: r => (takeQuoted r).map (fun p => (String.mk p.1, p.2))
  | _ => none

/-- Parse `null` or a string literal. -/
def parseOptStr (s : List Char) : Option (Option String × List Char) :=
  match s with
  | '"' :: r => (takeQuoted r).map (fun p => (some (String.mk p.1), p.2))
  | _ => (expectLit "null".data s).map (fun r => ((none : Option String), r))

/-- Parse `null` or a number. -/
def parseOptNat (s : List Char) : Option (Option Nat × List Char) :=
  if digitHead s then (parseNum s).map (fun p => (some p.1, p.2))
  else (expectLit "null".data s).map (fun r => ((none : Option Nat), r))

/-- Parse a `TunnelType` value. -/
def parseTT (s : List Char) : Option (TunnelType × List Char) :=
  match expectLit "\"http\"".data s with
  | some r => some (TunnelType.Http, r)
  | none => (expectLit "\"tcp\"".data s).map (fun r => (TunnelType.Tcp, r))

/-- Elements of a nonempty number array (fuel bounds recursion depth;
callers pass the input length, which always suffices). -/
def parseNatSeqCore : Nat → List Char → Option (List Nat × List Char)
  | 0, _ => none
  | fuel + 1, s =>
    (parseNum s).bind fun p =>
      match p.2 with
      | ',' :: r2 => (parseNatSeqCore fuel r2).map (fun q => (p.1 :: q.1, q.2))
      | ']' :: r2 => some ([p.1], r2)
      | _ => none

/-- Parse a JSON number array. -/
def parseNatSeq (s : List Char) : Option (List Nat × List Char) :=
  match s with
  | '[' :: r =>
    match r with
    | ']' :: r2 => some (([] : List Nat), r2)
    | _ => parseNatSeqCore (r.length + 1) r
  | _ => none

/-- Parse a two-element string array `["k","v"]`. -/
def parsePair (s : List Char) : Option ((String × String) × List Char) :=
  (expectLit "[".data s).bind fun r =>
  (parseQuoted r).bind fun p =>
  (expectLit ",".data p.2).bind fun r2 =>
  (parseQuoted r2).bind fun q =>
  (expectLit "]".data q.2).map fun r3 => ((p.1, q.1), r3)

/-- Elements of a nonempty header array. -/
def parsePairSeqCore : Nat → List Char → Option (List (String × String) × List Char)
  | 0, _ => none
  | fuel + 1, s =>
    (parsePair s).bind fun p =>
      match p.2 with
      | ',' :: r2 => (parsePairSeqCore fuel r2).map (fun q => (p.1 :: q.1, q.2))
      | ']' :: r2 => some ([p.1], r2)
      | _ => none

/-- Parse a JSON header array. -/
def parsePairSeq (s : List Char) : Option (List (String × String) × List Char) :=
  match s with
  | '[' :: r =>
    match r with
    | ']' :: r2 => some (([] : List (String × String)), r2)
    | _ => parsePairSeqCore (r.length + 1) r
  | _ => none

/-- Parse a `ClientMessage` from the canonical encoding: read the
`"type"` tag, dispatch on it, then read the variant's fields in order. -/
def parseClient (s : List Char) : Option (ClientMessage × List Char) :=
  (expectLit "\x7b\"type\":\"".data s).bind fun r =>
  (takeQuoted r).bind fun tp =>
  let tag := tp.1
  let r := tp.2
  if tag = "request_tunnel".data then
    (expectLit ",\"subdomain\":".data r).bind fun r =>
    (parseOptStr r).bind fun a =>
    (expectLit ",\"tunnel_type\":".data a.2).bind fun r =>
    (parseTT r).bind fun b =>
    (expectLit ",\"local_port\":".data b.2).bind fun r =>
    (parseNum r).bind fun c =>
    (expectLit "\x7d".data c.2).map fun r =>
    (ClientMessage.RequestTunnel a.1 b.1 c.1, r)
  else if tag = "http_response".data then
    (expectLit ",\"stream_id\":".data r).bind fun r =>
    (parseNum r).bind fun a =>
    (expectLit ",\"status\":".data a.2).bind fun r =>
    (parseNum r).bind fun b =>
    (expectLit ",\"headers\":".data b.2).bind fun r =>
    (parsePairSeq r).bind fun c =>
    (expectLit ",\"body\":".data c.2).bind fun r =>
    (parseNatSeq r).bind fun d =>
    (expectLit "\x7d".data d.2).map fun r =>
    (ClientMessage.HttpResponse a.1 b.1 c.1 d.1, r)
  else if tag = "tcp_data".data then
    (expectLit ",\"stream_id\":".data r).bind fun r =>
    (parseNum r).bind fun a =>
    (expectLit ",\"data\":".data a.2).bind fun r =>
    (parseNatSeq r).bind fun b =>
    (expectLit "\x7d".data b.2).map fun r =>
    (ClientMessage.TcpData a.1 b.1, r)
  else if tag = "tcp_close".data then
    (expectLit ",\"stream_id\":".data r).bind fun r =>
    (parseNum r).bind fun a =>
    (expectLit "\x7d".data a.2).map fun r =>
    (ClientMessage.TcpClose a.1, r)
  else if tag = "ping".data then
    (expectLit ",\"timestamp\":".data r).bind fun r =>
    (parseNum r).bind fun a =>
    (expectLit "\x7d".data a.2).map fun r =>
    (ClientMessage.Ping a.1, r)
  else none

/-- Parse a `ServerMessage` from the canonical encoding. -/
def parseServer (s : List Char) : Option (ServerMessage × List Char) :=
  (expectLit "\x7b\"type\":\"".data s).bind fun r =>
  (takeQuoted r).bind fun tp =>
  let tag := tp.1
  let r := tp.2
  if tag = "tunnel_established".data then
    (expectLit ",\"subdomain\":".data r).bind fun r =>
    (parseQuoted r).bind fun a =>
    (expectLit ",\"url\":".data a.2).bind fun r =>
    (parseQuoted r).bind fun b =>
    (expectLit ",\"port\":".data b.2).bind fun r =>
    (parseOptNat r).bind fun c =>
    (expectLit "\x7d".data c.2).map fun r =>
    (ServerMessage.TunnelEstablished a.1 b.1 c.1, r)
  else if tag = "tunnel_denied".data then
    (expectLit ",\"reason\":".data r).bind fun r =>
    (parseQuoted r).bind fun a =>
    (expectLit "\x7d".data a.2).map fun r =>
    (ServerMessage.TunnelDenied a.1, r)
  else if tag = "http_request".data then
    (expectLit ",\"stream_id\":".data r).bind fun r =>
    (parseNum r).bind fun a =>
    (expectLit ",\"method\":".data a.2).bind fun r =>
    (parseQuoted r).bind fun b =>
    (expectLit ",\"uri\":".data b.2).bind fun r =>
    (parseQuoted r).bind fun c =>
    (expectLit ",\"headers\":".data c.2).bind fun r =>
    (parsePairSeq r).bind fun d =>
    (expectLit ",\"body\":".data d.2).bind fun r =>
    (parseNatSeq r).bind fun e =>
    (expectLit "\x7d".data e.2).map fun r =>
    (ServerMessage.HttpRequest a.1 b.1 c.1 d.1 e.1, r)
  else if tag = "tcp_connect".data then
    (expectLit ",\"stream_id\":".data r).bind fun r =>
    (parseNum r).bind fun a =>
    (expectLit "\x7d".data a.2).map fun r =>
    (ServerMessage.TcpConnect a.1, r)
  else if tag = "tcp_data".data then
    (expectLit ",\"stream_id\":".data r).bind fun r =>
    (parseNum r).bind fun a =>
    (expectLit ",\"data\":".data a.2).bind fun r =>
    (parseNatSeq r).bind fun b =>
    (expectLit "\x7d".data b.2).map fun r =>
    (ServerMessage.TcpData a.1 b.1, r)
  else if tag = "tcp_close".data then
    (expectLit ",\"stream_id\":".data r).bind fun r =>
    (parseNum r).bind fun a =>
    (expectLit "\x7d".data a.2).map fun r =>
    (ServerMessage.TcpClose a.1, r)
  else if tag = "pong".data then
    (expectLit ",\"timestamp\":".data r).bind fun r =>
    (parseNum r).bind fun a =>
    (expectLit "\x7d".data a.2).map fun r =>
    (ServerMessage.Pong a.1, r)
  else none

/-! ### Byte level: UTF-8 of the (ASCII) JSON text, and well-formedness -/

/-- UTF-8 bytes of ASCII JSON text (codepoint = byte below 128). -/
def toBytes (cs : List Char) : List Nat := cs.map Char.toNat

/-- Decode bytes back to characters (inverse of `toBytes` on ASCII). -/
def ofBytes (bs : List Nat) : List Char := bs.map Char.ofNat

/-- `serde_json::to_vec` for a `ClientMessage`. -/
def serializeClient (m : ClientMessage) : List Nat := toBytes (jsonClient m)

/-- `serde_json::to_vec` for a `ServerMessage`. -/
def serializeServer (m : ServerMessage) : List Nat := toBytes (jsonServer m)

/-- `serde_json::from_slice` for a `ClientMessage` (canonical encodings;
the whole input must be consumed). -/
def deserializeClient (bs : List Nat) : Option ClientMessage :=
  match parseClient (ofBytes bs) with
  | some (m, []) => some m
  | _ => none

/-- `serde_json::from_slice` for a `ServerMessage`. -/
def deserializeServer (bs : List Nat) : Option ServerMessage :=
  match parseServer (ofBytes bs) with
  | some (m, []) => some m
  | _ => none

/-- A character serde_json never escapes: printable ASCII other than
`"` and `\`. -/
def plainChar (c : Char) : Bool :=
  decide (31 < c.toNat) && decide (c.toNat < 127) && c != '"' && c != '\\'

/-- A string whose serde_json encoding is the unescaped text. -/
def plainStr (s : String) : Bool := s.data.all plainChar

/-- Plainness for an optional string. -/
def plainOptStr : Option String → Bool
  | none => true
  | some s => plainStr s

/-- Well-formed `ClientMessage`: field values within their Rust types'
ranges; string fields plain ASCII (within the JSON model's scope). -/
def wfClient : ClientMessage → Bool
  | .RequestTunnel sub _ port => plainOptStr sub && decide (port < 65536)
  | .HttpResponse sid status headers body =>
      decide (sid < 2 ^ 64) && decide (status < 65536) &&
      headers.all (fun p => plainStr p.1 && plainStr p.2) &&
      body.all (fun x => decide (x < 256))
  | .TcpData sid data => decide (sid < 2 ^ 64) && data.all (fun x => decide (x < 256))
  | .TcpClose sid => decide (sid < 2 ^ 64)
  | .Ping ts => decide (ts < 2 ^ 64)

/-- Well-formed `ServerMessage`. -/
def wfServer : ServerMessage → Bool
  | .TunnelEstablished sub url port =>
      plainStr sub && plainStr url &&
      (match port with | none => true | some p => decide (p < 65536))
  | .TunnelDenied reason => plainStr reason
  | .HttpRequest sid method uri headers body =>
      decide (sid < 2 ^ 64) && plainStr method && plainStr uri &&
      headers.all (fun p => plainStr p.1 && plainStr p.2) &&
      body.all (fun x => decide (x < 256))
  | .TcpConnect sid => decide (sid < 2 ^ 64)
  | .TcpData sid data => decide (sid < 2 ^ 64) && data.all (fun x => decide (x < 256))
  | .TcpClose sid => decide (sid < 2 ^ 64)
  | .Pong ts => decide (ts < 2 ^ 64)

/-! ### `TunnelCodec` (`siphon-protocol/src/codec.rs`) -/

/-- `MAX_FRAME_SIZE`: maximum frame size (16 MB). -/
def MAX_FRAME_SIZE : Nat := 16 * 1024 * 1024

/-- `CodecError` from `codec.rs` (`FrameTooLarge`, `Io`, `Json`). -/
inductive CodecError where
  | FrameTooLarge (n : Nat)
  | IoError
  | Json
deriving DecidableEq, Repr

/-- Big-endian `u32` value of four bytes (`u32::from_be_bytes`). -/
def u32beVal (b0 b1 b2 b3 : Nat) : Nat := ((b0 * 256 + b1) * 256 + b2) * 256 + b3

/-- The four big-endian bytes `BufMut::put_u32` writes for `n as u32`
(the cast truncates to 32 bits). -/
def u32be (n : Nat) : List Nat :=
  [n % 2 ^ 32 / 2 ^ 24, n % 2 ^ 32 / 2 ^ 16 % 256, n % 2 ^ 32 / 2 ^ 8 % 256, n % 2 ^ 32 % 256]

/-- `TunnelCodec::decode`: with fewer than four bytes buffered, ask for
more; peek the big-endian length prefix; reject lengths over
`MAX_FRAME_SIZE` leaving the buffer untouched; with an incomplete frame
ask for more (the buffer is only `reserve`d); otherwise consume the
prefix and payload and run the payload deserializer, a JSON error still
leaving the buffer advanced past the frame.  The result pairs the Rust
return value with the buffer contents after the call. -/
def TunnelCodec.decode (deser : List Nat → Option α) (src : List Nat) :
    Except CodecError (Option α) × List Nat :=
  match src with
  | b0 :: b1 :: b2 :: b3 :: rest =>
    let length := u32beVal b0 b1 b2 b3
    if length > MAX_FRAME_SIZE then (.error (.FrameTooLarge length), src)
    else if rest.length < length then (.ok none, src)
    else
      match deser (rest.take length) with
      | some m => (.ok (some m), rest.drop length)
      | none => (.error .Json, rest.drop length)
  | _ => (.ok none, src)

/-- `TunnelCodec::encode`: serialize the payload (`ser` returns `none`
when serialization fails), enforce the ceiling, then append the length
prefix and payload to `dst`.  Returns the new buffer contents. -/
def TunnelCodec.encode (ser : α → Option (List Nat)) (item : α) (dst : List Nat) :
    Except CodecError (List Nat) :=
  match ser item with
  | none => .error .Json
  | some json =>
    if json.length > MAX_FRAME_SIZE then .error (.FrameTooLarge json.length)
    else .ok (dst ++ u32be json.length ++ json)

/-- The codec instantiated at `ClientMessage` (its serde serializer
never fails). -/
def encodeClient (m : ClientMessage) (dst : List Nat) : Except CodecError (List Nat) :=
  TunnelCodec.encode (fun x => some (serializeClient x)) m dst

/-- Decoder instantiated at `ClientMessage`. -/
def decodeClient (src : List Nat) : Except CodecError (Option ClientMessage) × List Nat :=
  TunnelCodec.decode deserializeClient src

/-- The codec instantiated at `ServerMessage`. -/
def encodeServer (m : ServerMessage) (dst : List Nat) : Except CodecError (List Nat) :=
  TunnelCodec.encode (fun x => some (serializeServer x)) m dst

/-- Decoder instantiated at `ServerMessage`. -/
def decodeServer (src : List Nat) : Except CodecError (Option ServerMessage) × List Nat :=
  TunnelCodec.decode deserializeServer src

/-- The complete encoded frame for a `ClientMessage`: what `encode`
appends to an empty buffer. -/
def frameOfClient (m : ClientMessage) : List Nat :=
  u32be (serializeClient m).length ++ serializeClient m

/-- The complete encoded frame for a `ServerMessage`. -/
def frameOfServer (m : ServerMessage) : List Nat :=
  u32be (serializeServer m).length ++ serializeServer m

/-! ### Stream-id counters (`state.rs`, `http_plane.rs`)

`state.rs` declares `StreamIdGenerator` ("Global stream ID counter
shared across all planes", `AtomicU64::new(1)`, `fetch_add(1)`), which
`main.rs` hands to `TcpPlane`; `HttpPlane` however carries its own
`stream_id_counter: AtomicU64::new(1)` and mints `HttpRequest` stream
ids from it (`HttpPlane::next_stream_id`). -/

/-- Which ingress plane mints a stream id. -/
inductive Plane where
  | http
  | tcp
deriving DecidableEq, Repr

/-- The two `AtomicU64` counters of one server process. -/
structure StreamCounters where
  httpCounter : Nat
  sharedCounter : Nat
deriving DecidableEq, Repr

/-- Both counters start at 1 (`AtomicU64::new(1)`). -/
def initialCounters : StreamCounters := ⟨1, 1⟩

/-- `fetch_add(1, Relaxed)` on the plane's counter: returns the previous
value; the store wraps at `2^64`. -/
def mintStreamId : Plane → StreamCounters → Nat × StreamCounters
  | .http, st => (st.httpCounter, ⟨(st.httpCounter + 1) % 2 ^ 64, st.sharedCounter⟩)
  | .tcp, st => (st.sharedCounter, ⟨st.httpCounter, (st.sharedCounter + 1) % 2 ^ 64⟩)

/-- The stream ids minted by a sequence of ingress events. -/
def mintTrace : List Plane → StreamCounters → List Nat
  | [], _ => []
  | p :: ps, st =>
    let r := mintStreamId p st
    r.1 :: mintTrace ps r.2

/-! ### Subdomain validation (`control_plane.rs::is_valid_subdomain`) -/

/-- Rust's `char::is_alphanumeric`, restricted to the ASCII range that
this model covers (on ASCII it is exactly letter-or-digit). -/
def rustIsAlphanumeric (c : Char) : Bool := c.isAlpha || c.isDigit

/-- `is_valid_subdomain` from `control_plane.rs`: nonempty, at most 63
(for ASCII: bytes = characters), first and last character alphanumeric,
every character alphanumeric or `-`. -/
def is_valid_subdomain (s : String) : Bool :=
  if s.data.isEmpty || decide (s.data.length > 63) then false
  else if !(s.data.head?.elim false rustIsAlphanumeric) then false
  else if !(s.data.getLast?.elim false rustIsAlphanumeric) then false
  else s.data.all (fun c => rustIsAlphanumeric c || decide (c = '-'))

/-- The §3 subdomain rule as the spec words it: 1–63 characters, every
character in `[a-z0-9-]`, no leading or trailing hyphen.  Stated from
the spec for comparison with `is_valid_subdomain`. -/
def specValidSubdomain (s : String) : Bool :=
  decide (1 ≤ s.data.length) && decide (s.data.length ≤ 63) &&
  s.data.all (fun c => (decide ('a' ≤ c) && decide (c ≤ 'z')) || c.isDigit || decide (c = '-')) &&
  decide (s.data.head? ≠ some '-') && decide (s.data.getLast? ≠ some '-')

/-- The `[a-zA-Z0-9-]` character class (what `is_valid_subdomain`
actually accepts on ASCII). -/
def asciiSubdomainChar (c : Char) : Bool :=
  c.isAlpha || c.isDigit || decide (c = '-')

/-! ### Tunnel negotiation (`control_plane.rs::handle_connection`,
`RequestTunnel` arm)

External collaborators appear as oracle arguments: `allocOutcome` is
`TcpPlane::allocate_and_listen` (the allocated port, or an error
message), `dnsOutcome` is `CloudflareClient::create_record` (the new
record id, or an error message), and `routesAtRegister` is the router
content at the instant `Router::register` runs — it may differ from
`routesAtCheck` (the content at the `is_available` check) because other
connections run concurrently.  `register` fails exactly when the
subdomain is a key of `routesAtRegister`. -/

/-- What a finished negotiation left behind: a DNS record still
existing, a port still allocated, a routing entry. -/
structure NegResources where
  dnsCreated : Option String
  portHeld : Option Nat
  registered : Bool
deriving DecidableEq, Repr

/-- The negotiation path: validate, check availability, allocate a port
(TCP only), create the DNS record, register; each failure replies
`TunnelDenied` with the reason string the code formats.  The returned
`NegResources` records what remains live after the reply. -/
def handleRequestTunnel (base subdomain : String) (tunnel_type : TunnelType)
    (routesAtCheck routesAtRegister : List String)
    (allocOutcome : Except String Nat) (dnsOutcome : Except String String) :
    ServerMessage × NegResources :=
  if !(is_valid_subdomain subdomain) then
    (.TunnelDenied "Invalid subdomain format", ⟨none, none, false⟩)
  else if routesAtCheck.contains subdomain then
    (.TunnelDenied "Subdomain already in use", ⟨none, none, false⟩)
  else
    let portStep : Except String (Option Nat) :=
      match tunnel_type with
      | .Tcp => allocOutcome.map some
      | .Http => .ok none
    match portStep with
    | .error e => (.TunnelDenied ("TCP port allocation failed: " ++ e), ⟨none, none, false⟩)
    | .ok tcp_port =>
      match dnsOutcome with
      | .error e =>
        -- DNS failed: the allocated port is released before the denial
        (.TunnelDenied ("DNS error: " ++ e), ⟨none, none, false⟩)
      | .ok record_id =>
        if routesAtRegister.contains subdomain then
          -- register fails: the port is released, the denial sent; the
          -- DNS record created above is not deleted
          (.TunnelDenied ("Registration failed: Subdomain already taken: " ++ subdomain),
            ⟨some record_id, none, false⟩)
        else
          (.TunnelEstablished subdomain
            (match tunnel_type with
             | .Http => "https://" ++ subdomain ++ "." ++ base
             | .Tcp => subdomain ++ "." ++ base)
            (match tunnel_type with
             | .Http => none
             | .Tcp => tcp_port),
            ⟨some record_id, tcp_port, true⟩)

/-! ### Connection teardown (`control_plane.rs::handle_connection`,
cleanup after the read loop) -/

/-- The server-wide shared state the teardown path can touch.
`pendingResponses` holds the stream ids of `ResponseRegistry` entries
whose `oneshot::Sender` is alive. -/
structure ServerShared where
  routes : List (String × Option String)
  dnsRecords : List String
  allocatedPorts : List Nat
  pendingResponses : List Nat
deriving DecidableEq, Repr

/-- `Router::unregister` lookup part: the handle's `dns_record_id`. -/
def lookupRoute (rs : List (String × Option String)) (sub : String) : Option (Option String) :=
  (rs.find? (fun p => p.1 == sub)).map (·.2)

/-- `Router::unregister` removal part. -/
def removeRoute (rs : List (String × Option String)) (sub : String) :
    List (String × Option String) :=
  rs.filter (fun p => !(p.1 == sub))

/-- The cleanup sequence at the end of `handle_connection`: unregister
the tunnel and delete its DNS record (when one was assigned), release
the TCP port (when one was assigned), abort the writer task.  It never
touches the pending-response registry. -/
def connectionTeardown (assignedSubdomain : Option String) (assignedTcpPort : Option Nat)
    (st : ServerShared) : ServerShared :=
  let st1 :=
    match assignedSubdomain with
    | none => st
    | some sub =>
      match lookupRoute st.routes sub with
      | none => st
      | some dnsId =>
        let removed := { st with routes := removeRoute st.routes sub }
        match dnsId with
        | none => removed
        | some rid => { removed with dnsRecords := removed.dnsRecords.erase rid }
  match assignedTcpPort with
  | none => st1
  | some p => { st1 with allocatedPorts := st1.allocatedPorts.erase p }

/-! ### HTTP ingress (`http_plane.rs`) -/

/-- UTF-8 bytes of an (ASCII) response body text. -/
def strBytes (s : String) : List Nat := s.data.map Char.toNat

/-- An HTTP response as `handle_request` builds it. -/
structure HttpResp where
  status : Nat
  headers : List (String × String)
  body : List Nat
deriving DecidableEq, Repr

/-- Outcome of `sender.send(msg).await` on the tunnel's outbound
channel: `channelClosed` when the receiver is gone. -/
inductive SendOutcome where
  | sent
  | channelClosed
deriving DecidableEq, Repr

/-- Outcome of awaiting the oneshot response sink under the 30-second
deadline. -/
inductive AwaitOutcome where
  | delivered (status : Nat) (headers : List (String × String)) (body : List Nat)
  | sinkClosed
  | timedOut
deriving DecidableEq, Repr

/-- The `tokio::time::timeout(30s, response_rx)` match of
`handle_request`: deliver verbatim / 502 on sink closure / 504 on
expiry.  The boolean records whether the handler removed the
pending-response registry entry in that branch. -/
def awaitResponse : AwaitOutcome → HttpResp × Bool
  | .delivered status headers body => (⟨status, headers, body⟩, false)
  | .sinkClosed => (⟨502, [], strBytes "Tunnel disconnected"⟩, false)
  | .timedOut => (⟨504, [], strBytes "Tunnel response timeout"⟩, true)

/-- Rust `str::strip_suffix` on character lists. -/
def stripSuffixOpt (suf l : List Char) : Option (List Char) :=
  if suf.isSuffixOf l then some (l.take (l.length - suf.length)) else none

/-- `HttpPlane::extract_subdomain`: take the Host header (absent or
non-UTF-8 gives `none`), strip any `:port`, require the base-domain
suffix (`ends_with` then `strip_suffix(".base")`), return the first
label of what precedes it. -/
def extract_subdomain (base : String) (hostHeader : Option String) : Option String :=
  match hostHeader with
  | none => none
  | some h =>
    let host := h.data.takeWhile (fun c => !(c == ':'))
    if !(base.data.isSuffixOf host) then none
    else
      match stripSuffixOpt ('.' :: base.data) host with
      | none => none
      | some sp => some (String.mk (sp.takeWhile (fun c => !(c == '.'))))

/-- `HttpPlane::handle_request` at the routing/response level: the body
collection is elided (its failure branch answers 500 and is unclaimed),
`routes` is the router's key set, `sendOutcome` and `awaitOutcome` are
the transport oracles.  The boolean is true when the handler removed
the pending-response registry entry it inserted. -/
def handle_request (base : String) (hostHeader : Option String) (routes : List String)
    (sendOutcome : SendOutcome) (awaitOutcome : AwaitOutcome) : HttpResp × Bool :=
  match extract_subdomain base hostHeader with
  | none => (⟨400, [], strBytes "Invalid or missing subdomain"⟩, false)
  | some sub =>
    if !(routes.contains sub) then
      (⟨404, [], strBytes ("Tunnel not found for: " ++ sub)⟩, false)
    else
      match sendOutcome with
      | .channelClosed => (⟨502, [], strBytes "Tunnel connection lost"⟩, true)
      | .sent => awaitResponse awaitOutcome

/-! ### The control-plane read/decode loop (`control_plane.rs`,
`handle_connection`) -/

/-- Observable events of one connection's message processing. -/
inductive ConnEvent where
  | dispatched (m : ClientMessage)
  | decodeError (e : CodecError)
deriving DecidableEq, Repr

/-- The inner `loop { match codec.decode(&mut read_buf) … }`: dispatch
decoded messages until the decoder asks for more data, or an error
breaks the loop (the connection is not torn down).  Fuel only bounds
iterations; callers pass the buffer length + 1, which suffices because
every decoded frame consumes at least four bytes. -/
def drainFrames : Nat → List Nat → List ConnEvent → List ConnEvent × List Nat
  | 0, buf, acc => (acc, buf)
  | fuel + 1, buf, acc =>
    match TunnelCodec.decode deserializeClient buf with
    | (.ok (some m), buf1) => drainFrames fuel buf1 (acc ++ [.dispatched m])
    | (.ok none, buf1) => (acc, buf1)
    | (.error e, buf1) => (acc ++ [.decodeError e], buf1)

/-- The outer read loop: each chunk is one successful `read_buf`
result appended to the connection buffer, then the decode loop runs.
The loop ends (and teardown follows) only when the transport yields
EOF or an error — here, when the chunks run out. -/
def connReadLoop : List (List Nat) → List Nat → List ConnEvent → List ConnEvent
  | [], _, acc => acc
  | chunk :: rest, buf, acc =>
    let buf1 := buf ++ chunk
    let st := drainFrames (buf1.length + 1) buf1 acc
    connReadLoop rest st.2 st.1

/-- Events of a whole connection whose transport delivered `chunks`
then EOF. -/
def runConn (chunks : List (List Nat)) : List ConnEvent := connReadLoop chunks [] []

end Siphon

namespace Siphon

theorem digitCh_isDigit {d : Nat} (h : d < 10) : (digitCh d).isDigit = true := by
  interval_cases d <;> decide

theorem digitVal_digitCh {d : Nat} (h : d < 10) : digitVal (digitCh d) = d := by
  interval_cases d <;> decide

theorem natToCharsCore_zero (n : Nat) : natToCharsCore 0 n = [] := rfl

theorem natToCharsCore_succ (fuel n : Nat) :
    natToCharsCore (fuel + 1) n =
      if n < 10 then [digitCh n] else natToCharsCore fuel (n / 10) ++ [digitCh (n % 10)] := rfl

theorem natToCharsCore_digits : ∀ (fuel n : Nat), ∀ c ∈ natToCharsCore fuel n, c.isDigit = true := by
  intro fuel
  induction fuel with
  | zero => intro n c hc; simp [natToCharsCore_zero] at hc
  | succ fuel ih =>
    intro n c hc
    rw [natToCharsCore_succ] at hc
    by_cases h : n < 10
    · rw [if_pos h] at hc
      simp only [List.mem_singleton] at hc
      subst hc; exact digitCh_isDigit h
    · rw [if_neg h] at hc
      rcases List.mem_append.mp hc with hc | hc
      · exact ih _ _ hc
      · simp only [List.mem_singleton] at hc
        subst hc; exact digitCh_isDigit (Nat.mod_lt _ (by omega))

theorem natToCharsCore_ne_nil (fuel n : Nat) : natToCharsCore (fuel + 1) n ≠ [] := by
  rw [natToCharsCore_succ]
  by_cases h : n < 10 <;> simp [h]

theorem takeDigits_nil : takeDigits [] = ([], []) := rfl

theorem takeDigits_cons (c : Char) (cs : List Char) :
    takeDigits (c :: cs) =
      if c.isDigit then ((c :: (takeDigits cs).1, (takeDigits cs).2)) else ([], c :: cs) := by
  rw [takeDigits]

theorem takeDigits_append {xs ys : List Char} (hx : ∀ c ∈ xs, c.isDigit = true)
    (hy : digitHead ys = false) : takeDigits (xs ++ ys) = (xs, ys) := by
  induction xs with
  | nil =>
    simp only [List.nil_append]
    cases ys with
    | nil => rfl
    | cons y ys =>
      have : y.isDigit = false := by simpa [digitHead] using hy
      simp [takeDigits_cons, this]
  | cons x xs ih =>
    have hx0 : x.isDigit = true := hx x (List.mem_cons_self _ _)
    have hxs : ∀ c ∈ xs, c.isDigit = true := fun c hc => hx c (List.mem_cons_of_mem _ hc)
    simp [takeDigits_cons, hx0, ih hxs]

theorem digitsToNat_nil (acc : Nat) : digitsToNat acc [] = acc := rfl

theorem digitsToNat_cons (acc : Nat) (c : Char) (cs : List Char) :
    digitsToNat acc (c :: cs) = digitsToNat (acc * 10 + digitVal c) cs := rfl

theorem digitsToNat_append (acc : Nat) (xs ys : List Char) :
    digitsToNat acc (xs ++ ys) = digitsToNat (digitsToNat acc xs) ys := by
  induction xs generalizing acc with
  | nil => rfl
  | cons x xs ih => simp only [List.cons_append, digitsToNat_cons, ih]

theorem digitsToNat_natToCharsCore : ∀ (fuel n acc : Nat), n < 10 ^ fuel →
    digitsToNat acc (natToCharsCore fuel n) = acc * 10 ^ (natToCharsCore fuel n).length + n := by
  intro fuel
  induction fuel with
  | zero =>
    intro n acc h
    have : n = 0 := by simpa using h
    subst this
    simp [natToCharsCore_zero, digitsToNat_nil]
  | succ fuel ih =>
    intro n acc h
    rw [natToCharsCore_succ]
    by_cases h10 : n < 10
    · rw [if_pos h10]
      simp only [digitsToNat_cons, digitsToNat_nil, digitVal_digitCh h10,
        List.length_singleton, pow_one]
    · have hdiv : n / 10 < 10 ^ fuel := by
        rw [Nat.div_lt_iff_lt_mul (by norm_num)]
        calc n < 10 ^ (fuel + 1) := h
          _ = 10 ^ fuel * 10 := by ring
      rw [if_neg h10, digitsToNat_append, ih _ _ hdiv]
      simp only [digitsToNat_cons, digitsToNat_nil, digitVal_digitCh (Nat.mod_lt n (by omega)),
        List.length_append, List.length_singleton, pow_succ, ← mul_assoc]
      generalize acc * 10 ^ (natToCharsCore fuel (n / 10)).length = a
      omega

theorem natChars_digits (n : Nat) : ∀ c ∈ natChars n, c.isDigit = true :=
  natToCharsCore_digits _ n

theorem natChars_ne_nil (n : Nat) : natChars n ≠ [] := natToCharsCore_ne_nil n n

theorem digitsToNat_natChars (n : Nat) : digitsToNat 0 (natChars n) = n := by
  have h : n < 10 ^ (n + 1) := lt_of_lt_of_le (Nat.lt_two_pow n)
    (le_trans (Nat.pow_le_pow_left (by norm_num) n) (Nat.pow_le_pow_right (by norm_num) (Nat.le_succ n)))
  simpa using digitsToNat_natToCharsCore (n + 1) n 0 h

theorem parseNum_append (n : Nat) {rest : List Char} (h : digitHead rest = false) :
    parseNum (natChars n ++ rest) = some (n, rest) := by
  have := takeDigits_append (natChars_digits n) h
  simp only [parseNum, this]
  match hne : natChars n with
  | [] => exact absurd hne (natChars_ne_nil n)
  | c :: cs =>
    simp only
    rw [← hne, digitsToNat_natChars]

theorem expectLit_nil (s : List Char) : expectLit [] s = some s := rfl

theorem expectLit_cons (c d : Char) (cs ds : List Char) :
    expectLit (c :: cs) (d :: ds) = if c = d then expectLit cs ds else none := rfl

theorem expectLit_self (l r : List Char) : expectLit l (l ++ r) = some r := by
  induction l with
  | nil => rfl
  | cons c cs ih => rw [List.cons_append, expectLit_cons, if_pos rfl, ih]

theorem takeQuoted_cons (c : Char) (cs : List Char) :
    takeQuoted (c :: cs) =
      if c = '"' then some ([], cs) else (takeQuoted cs).map (fun p => (c :: p.1, p.2)) := rfl

theorem takeQuoted_append (xs : List Char) (h : '"' ∉ xs) (r : List Char) :
    takeQuoted (xs ++ '"' :: r) = some (xs, r) := by
  induction xs with
  | nil => rfl
  | cons c cs ih =>
    have hc : ¬ c = '"' := fun hc => h (hc ▸ List.mem_cons_self c cs)
    have hcs : '"' ∉ cs := fun hm => h (List.mem_cons_of_mem c hm)
    rw [List.cons_append, takeQuoted_cons, if_neg hc, ih hcs]
    rfl

theorem plainStr_no_quote {s : String} (h : plainStr s = true) : '"' ∉ s.data := by
  intro hm
  have := (List.all_eq_true.mp h) _ hm
  simp [plainChar] at this

theorem string_mk_data (s : String) : String.mk s.data = s := rfl

theorem parseQuoted_append {s : String} (h : plainStr s = true) (r : List Char) :
    parseQuoted (jstr s ++ r) = some (s, r) := by
  have : jstr s ++ r = '"' :: (s.data ++ '"' :: r) := by
    simp [jstr]
  rw [this]
  show (takeQuoted (s.data ++ '"' :: r)).map _ = _
  rw [takeQuoted_append _ (plainStr_no_quote h) r]
  simp [string_mk_data]

theorem parseOptStr_null (r : List Char) :
    parseOptStr ("null".data ++ r) = some (none, r) := rfl

theorem parseOptStr_append {o : Option String} (h : plainOptStr o = true) (r : List Char) :
    parseOptStr (jsonOptStr o ++ r) = some (o, r) := by
  match o with
  | none => exact parseOptStr_null r
  | some s =>
    have : jsonOptStr (some s) ++ r = '"' :: (s.data ++ '"' :: r) := by
      simp [jsonOptStr, jstr]
    rw [this]
    show (takeQuoted (s.data ++ '"' :: r)).map _ = _
    rw [takeQuoted_append _ (plainStr_no_quote h) r]
    simp [string_mk_data]

theorem digitHead_append_natChars (n : Nat) (r : List Char) :
    digitHead (natChars n ++ r) = true := by
  match hne : natChars n, natChars_digits n with
  | [], _ => exact absurd hne (natChars_ne_nil n)
  | c :: cs, hd =>
    show digitHead (c :: (cs ++ r)) = true
    have : c.isDigit = true := hd c (hne ▸ List.mem_cons_self c cs)
    simpa [digitHead] using this

theorem parseOptNat_null (r : List Char) :
    parseOptNat ("null".data ++ r) = some (none, r) := rfl

theorem parseOptNat_append {o : Option Nat} {r : List Char} (h : digitHead r = false) :
    parseOptNat (jsonOptNat o ++ r) = some (o, r) := by
  match o with
  | none => exact parseOptNat_null r
  | some n =>
    show parseOptNat (natChars n ++ r) = _
    rw [parseOptNat, if_pos (digitHead_append_natChars n r), parseNum_append n h]
    rfl

theorem parseTT_append (t : TunnelType) (r : List Char) :
    parseTT (jsonTT t ++ r) = some (t, r) := by
  cases t
  · show parseTT ("\"http\"".data ++ r) = _
    rw [parseTT, expectLit_self]
  · show parseTT ("\"tcp\"".data ++ r) = _
    rw [parseTT]
    have h1 : expectLit "\"http\"".data ("\"tcp\"".data ++ r) = none := rfl
    rw [h1, expectLit_self]
    rfl

theorem digitHead_comma (z : List Char) : digitHead (",".data ++ z) = false := rfl

theorem digitHead_rbracket (z : List Char) : digitHead ("]".data ++ z) = false := rfl

theorem parseNatSeqCore_succ (fuel : Nat) (s : List Char) :
    parseNatSeqCore (fuel + 1) s =
      (parseNum s).bind fun p =>
        match p.2 with
        | ',' :: r2 => (parseNatSeqCore fuel r2).map (fun q => (p.1 :: q.1, q.2))
        | ']' :: r2 => some ([p.1], r2)
        | _ => none := rfl

theorem parseNatSeqCore_append : ∀ (ns : List Nat), ns ≠ [] → ∀ (fuel : Nat), ns.length ≤ fuel →
    ∀ (r : List Char), parseNatSeqCore fuel (jsonNatSeqBody ns ++ r) = some (ns, r) := by
  intro ns
  induction ns with
  | nil => intro h; exact absurd rfl h
  | cons n ns ih =>
    intro _ fuel hf r
    match fuel, hf with
    | fuel + 1, hf =>
      cases ns with
      | nil =>
        show parseNatSeqCore (fuel + 1) ((natChars n ++ "]".data) ++ r) = _
        rw [List.append_assoc, parseNatSeqCore_succ, parseNum_append n (digitHead_rbracket r)]
        rfl
      | cons m ms =>
        show parseNatSeqCore (fuel + 1)
          ((natChars n ++ ",".data ++ jsonNatSeqBody (m :: ms)) ++ r) = _
        rw [List.append_assoc, List.append_assoc, parseNatSeqCore_succ,
          parseNum_append n (digitHead_comma _)]
        show (parseNatSeqCore fuel (jsonNatSeqBody (m :: ms) ++ r)).map
          (fun q => (n :: q.1, q.2)) = _
        rw [ih (List.cons_ne_nil m ms) fuel (by simpa [List.length_cons] using hf) r]
        rfl

theorem natChars_length_pos (n : Nat) : 0 < (natChars n).length := by
  match hne : natChars n with
  | [] => exact absurd hne (natChars_ne_nil n)
  | c :: cs => simp

theorem jsonNatSeqBody_length_ge : ∀ (ns : List Nat), ns.length ≤ (jsonNatSeqBody ns).length := by
  intro ns
  induction ns with
  | nil => simp [jsonNatSeqBody]
  | cons n ns ih =>
    cases ns with
    | nil =>
      show 1 ≤ (natChars n ++ "]".data).length
      simp
    | cons m ms =>
      show (m :: ms).length + 1 ≤ (natChars n ++ ",".data ++ jsonNatSeqBody (m :: ms)).length
      have h1 := natChars_length_pos n
      simp only [List.length_append]
      omega

theorem jsonNatSeqBody_head (n : Nat) (ns : List Nat) :
    ∃ c cs, jsonNatSeqBody (n :: ns) = c :: cs ∧ c.isDigit = true := by
  have hd := natChars_digits n
  match hne : natChars n, hd with
  | [], _ => exact absurd hne (natChars_ne_nil n)
  | c :: cs, hd =>
    have hc : c.isDigit = true := hd c (hne ▸ List.mem_cons_self c cs)
    cases ns with
    | nil => exact ⟨c, cs ++ "]".data, by show natChars n ++ _ = _; rw [hne]; rfl, hc⟩
    | cons m ms =>
      exact ⟨c, cs ++ ",".data ++ jsonNatSeqBody (m :: ms),
        by show natChars n ++ _ ++ _ = _; rw [hne]; simp, hc⟩

theorem parseNatSeq_append (ns : List Nat) (r : List Char) :
    parseNatSeq (jsonNatSeq ns ++ r) = some (ns, r) := by
  cases ns with
  | nil => rfl
  | cons n ns =>
    obtain ⟨c, cs, hbody, hc⟩ := jsonNatSeqBody_head n ns
    have hlen : (n :: ns).length ≤ (jsonNatSeqBody (n :: ns) ++ r).length + 1 := by
      have := jsonNatSeqBody_length_ge (n :: ns)
      simp only [List.length_append]
      omega
    show parseNatSeq (("[".data ++ jsonNatSeqBody (n :: ns)) ++ r) = _
    rw [List.append_assoc]
    show parseNatSeq ('[' :: (jsonNatSeqBody (n :: ns) ++ r)) = _
    rw [parseNatSeq]
    · exact parseNatSeqCore_append (n :: ns) (List.cons_ne_nil n ns) _ hlen r
    · intro r2 heq
      rw [hbody, List.cons_append] at heq
      injection heq with h1 _
      rw [h1] at hc
      simp at hc

theorem parsePair_append {p : String × String}
    (h1 : plainStr p.1 = true) (h2 : plainStr p.2 = true) (r : List Char) :
    parsePair (jsonPair p ++ r) = some (p, r) := by
  obtain ⟨k, v⟩ := p
  simp only [jsonPair, List.append_assoc]
  rw [parsePair, expectLit_self, Option.some_bind, parseQuoted_append h1, Option.some_bind]
  show (expectLit ",".data (",".data ++ (jstr v ++ ("]".data ++ r)))).bind _ = _
  rw [expectLit_self, Option.some_bind, parseQuoted_append h2, Option.some_bind]
  show (expectLit "]".data ("]".data ++ r)).map _ = _
  rw [expectLit_self]
  rfl

theorem parsePairSeqCore_succ (fuel : Nat) (s : List Char) :
    parsePairSeqCore (fuel + 1) s =
      (parsePair s).bind fun p =>
        match p.2 with
        | ',' :: r2 => (parsePairSeqCore fuel r2).map (fun q => (p.1 :: q.1, q.2))
        | ']' :: r2 => some ([p.1], r2)
        | _ => none := rfl

theorem parsePairSeqCore_append : ∀ (ps : List (String × String)),
    (∀ p ∈ ps, plainStr p.1 = true ∧ plainStr p.2 = true) → ps ≠ [] →
    ∀ (fuel : Nat), ps.length ≤ fuel →
    ∀ (r : List Char), parsePairSeqCore fuel (jsonPairSeqBody ps ++ r) = some (ps, r) := by
  intro ps
  induction ps with
  | nil => intro _ h; exact absurd rfl h
  | cons p ps ih =>
    intro hw _ fuel hf r
    have hp := hw p (List.mem_cons_self p ps)
    have hps : ∀ q ∈ ps, plainStr q.1 = true ∧ plainStr q.2 = true :=
      fun q hq => hw q (List.mem_cons_of_mem p hq)
    match fuel, hf with
    | fuel + 1, hf =>
      cases ps with
      | nil =>
        show parsePairSeqCore (fuel + 1) ((jsonPair p ++ "]".data) ++ r) = _
        rw [List.append_assoc, parsePairSeqCore_succ, parsePair_append hp.1 hp.2]
        rfl
      | cons q qs =>
        show parsePairSeqCore (fuel + 1)
          ((jsonPair p ++ ",".data ++ jsonPairSeqBody (q :: qs)) ++ r) = _
        rw [List.append_assoc, List.append_assoc, parsePairSeqCore_succ,
          parsePair_append hp.1 hp.2]
        show (parsePairSeqCore fuel (jsonPairSeqBody (q :: qs) ++ r)).map
          (fun w => (p :: w.1, w.2)) = _
        rw [ih hps (List.cons_ne_nil q qs) fuel (by simpa [List.length_cons] using hf) r]
        rfl

theorem jsonPairSeqBody_length_ge : ∀ (ps : List (String × String)),
    ps.length ≤ (jsonPairSeqBody ps).length := by
  intro ps
  induction ps with
  | nil => simp [jsonPairSeqBody]
  | cons p ps ih =>
    cases ps with
    | nil =>
      show 1 ≤ (jsonPair p ++ "]".data).length
      simp [jsonPair]
    | cons q qs =>
      show (q :: qs).length + 1 ≤ (jsonPair p ++ ",".data ++ jsonPairSeqBody (q :: qs)).length
      have hcomma : (",".data).length = 1 := rfl
      simp only [List.length_append, hcomma]
      omega

theorem jsonPairSeqBody_head (p : String × String) (ps : List (String × String)) :
    ∃ cs, jsonPairSeqBody (p :: ps) = '[' :: cs := by
  cases ps with
  | nil =>
    refine ⟨jstr p.1 ++ ",".data ++ jstr p.2 ++ "]".data ++ "]".data, ?_⟩
    show jsonPair p ++ _ = _
    simp [jsonPair]
  | cons q qs =>
    refine ⟨jstr p.1 ++ ",".data ++ jstr p.2 ++ "]".data ++ (",".data ++ jsonPairSeqBody (q :: qs)), ?_⟩
    show jsonPair p ++ _ ++ _ = _
    simp [jsonPair]

theorem parsePairSeq_append {ps : List (String × String)}
    (hw : ∀ p ∈ ps, plainStr p.1 = true ∧ plainStr p.2 = true) (r : List Char) :
    parsePairSeq (jsonPairSeq ps ++ r) = some (ps, r) := by
  cases ps with
  | nil => rfl
  | cons p ps =>
    obtain ⟨cs, hbody⟩ := jsonPairSeqBody_head p ps
    have hlen : (p :: ps).length ≤ (jsonPairSeqBody (p :: ps) ++ r).length + 1 := by
      have := jsonPairSeqBody_length_ge (p :: ps)
      simp only [List.length_append]
      omega
    show parsePairSeq (("[".data ++ jsonPairSeqBody (p :: ps)) ++ r) = _
    rw [List.append_assoc]
    show parsePairSeq ('[' :: (jsonPairSeqBody (p :: ps) ++ r)) = _
    rw [parsePairSeq]
    · exact parsePairSeqCore_append (p :: ps) hw (List.cons_ne_nil p ps) _ hlen r
    · intro r2 heq
      rw [hbody, List.cons_append] at heq
      injection heq with h1 _
      exact absurd h1 (by decide)


theorem digitHead_cons (c : Char) (z : List Char) : digitHead (c :: z) = c.isDigit := rfl

set_option maxHeartbeats 1600000 in
theorem parseClient_jsonClient (m : ClientMessage) (h : wfClient m = true) (r : List Char) :
    parseClient (jsonClient m ++ r) = some (m, r) := by
  cases m with
  | RequestTunnel sub tt port =>
    have hsub : plainOptStr sub = true := by
      simp only [wfClient, Bool.and_eq_true] at h
      exact h.1
    simp +decide only [jsonClient, parseClient, List.append_assoc, List.cons_append,
      List.nil_append, expectLit_nil, expectLit_cons, takeQuoted_cons, if_true, if_false,
      Option.some_bind, digitHead_cons, parseNum_append, parseOptStr_append hsub,
      parseTT_append, Option.map_some']
  | HttpResponse sid status headers body =>
    have hw : ∀ p ∈ headers, plainStr p.1 = true ∧ plainStr p.2 = true := by
      simp only [wfClient, Bool.and_eq_true, List.all_eq_true] at h
      intro p hp
      simpa using h.1.2 p hp
    simp +decide only [jsonClient, parseClient, List.append_assoc, List.cons_append,
      List.nil_append, expectLit_nil, expectLit_cons, takeQuoted_cons, if_true, if_false,
      Option.some_bind, digitHead_cons, parseNum_append, parsePairSeq_append hw,
      parseNatSeq_append, Option.map_some']
  | TcpData sid data =>
    simp +decide only [jsonClient, parseClient, List.append_assoc, List.cons_append,
      List.nil_append, expectLit_nil, expectLit_cons, takeQuoted_cons, if_true, if_false,
      Option.some_bind, digitHead_cons, parseNum_append, parseNatSeq_append, Option.map_some']
  | TcpClose sid =>
    simp +decide only [jsonClient, parseClient, List.append_assoc, List.cons_append,
      List.nil_append, expectLit_nil, expectLit_cons, takeQuoted_cons, if_true, if_false,
      Option.some_bind, digitHead_cons, parseNum_append, Option.map_some']
  | Ping ts =>
    simp +decide only [jsonClient, parseClient, List.append_assoc, List.cons_append,
      List.nil_append, expectLit_nil, expectLit_cons, takeQuoted_cons, if_true, if_false,
      Option.some_bind, digitHead_cons, parseNum_append, Option.map_some']

set_option maxHeartbeats 1600000 in
theorem parseServer_jsonServer (m : ServerMessage) (h : wfServer m = true) (r : List Char) :
    parseServer (jsonServer m ++ r) = some (m, r) := by
  cases m with
  | TunnelEstablished sub url port =>
    have hsub : plainStr sub = true := by
      simp only [wfServer, Bool.and_eq_true] at h
      exact h.1.1
    have hurl : plainStr url = true := by
      simp only [wfServer, Bool.and_eq_true] at h
      exact h.1.2
    simp +decide only [jsonServer, parseServer, List.append_assoc, List.cons_append,
      List.nil_append, expectLit_nil, expectLit_cons, takeQuoted_cons, if_true, if_false,
      Option.some_bind, digitHead_cons, parseNum_append, parseQuoted_append hsub,
      parseQuoted_append hurl, parseOptNat_append, Option.map_some']
  | TunnelDenied reason =>
    have hr : plainStr reason = true := by
      simpa only [wfServer] using h
    simp +decide only [jsonServer, parseServer, List.append_assoc, List.cons_append,
      List.nil_append, expectLit_nil, expectLit_cons, takeQuoted_cons, if_true, if_false,
      Option.some_bind, digitHead_cons, parseQuoted_append hr, Option.map_some']
  | HttpRequest sid method uri headers body =>
    have hm : plainStr method = true := by
      simp only [wfServer, Bool.and_eq_true] at h
      exact h.1.1.1.2
    have hu : plainStr uri = true := by
      simp only [wfServer, Bool.and_eq_true] at h
      exact h.1.1.2
    have hw : ∀ p ∈ headers, plainStr p.1 = true ∧ plainStr p.2 = true := by
      simp only [wfServer, Bool.and_eq_true, List.all_eq_true] at h
      intro p hp
      simpa using h.1.2 p hp
    simp +decide only [jsonServer, parseServer, List.append_assoc, List.cons_append,
      List.nil_append, expectLit_nil, expectLit_cons, takeQuoted_cons, if_true, if_false,
      Option.some_bind, digitHead_cons, parseNum_append, parseQuoted_append hm,
      parseQuoted_append hu, parsePairSeq_append hw, parseNatSeq_append, Option.map_some']
  | TcpConnect sid =>
    simp +decide only [jsonServer, parseServer, List.append_assoc, List.cons_append,
      List.nil_append, expectLit_nil, expectLit_cons, takeQuoted_cons, if_true, if_false,
      Option.some_bind, digitHead_cons, parseNum_append, Option.map_some']
  | TcpData sid data =>
    simp +decide only [jsonServer, parseServer, List.append_assoc, List.cons_append,
      List.nil_append, expectLit_nil, expectLit_cons, takeQuoted_cons, if_true, if_false,
      Option.some_bind, digitHead_cons, parseNum_append, parseNatSeq_append, Option.map_some']
  | TcpClose sid =>
    simp +decide only [jsonServer, parseServer, List.append_assoc, List.cons_append,
      List.nil_append, expectLit_nil, expectLit_cons, takeQuoted_cons, if_true, if_false,
      Option.some_bind, digitHead_cons, parseNum_append, Option.map_some']
  | Pong ts =>
    simp +decide only [jsonServer, parseServer, List.append_assoc, List.cons_append,
      List.nil_append, expectLit_nil, expectLit_cons, takeQuoted_cons, if_true, if_false,
      Option.some_bind, digitHead_cons, parseNum_append, Option.map_some']

theorem ofBytes_toBytes (cs : List Char) : ofBytes (toBytes cs) = cs := by
  simp only [ofBytes, toBytes, List.map_map]
  have : (Char.ofNat ∘ Char.toNat) = id := by
    funext c
    exact Char.ofNat_toNat c
  rw [this, List.map_id]

theorem deserializeClient_serializeClient (m : ClientMessage) (h : wfClient m = true) :
    deserializeClient (serializeClient m) = some m := by
  have hp := parseClient_jsonClient m h []
  rw [List.append_nil] at hp
  rw [deserializeClient, serializeClient, ofBytes_toBytes, hp]

theorem deserializeServer_serializeServer (m : ServerMessage) (h : wfServer m = true) :
    deserializeServer (serializeServer m) = some m := by
  have hp := parseServer_jsonServer m h []
  rw [List.append_nil] at hp
  rw [deserializeServer, serializeServer, ofBytes_toBytes, hp]


/-! ### Codec-level lemmas -/

theorem u32beVal_u32be (n : Nat) (h : n < 2 ^ 32) :
    u32beVal (n % 2 ^ 32 / 2 ^ 24) (n % 2 ^ 32 / 2 ^ 16 % 256) (n % 2 ^ 32 / 2 ^ 8 % 256)
      (n % 2 ^ 32 % 256) = n := by
  rw [Nat.mod_eq_of_lt h]
  simp only [u32beVal]
  omega

theorem u32be_cons (n : Nat) :
    u32be n = n % 2 ^ 32 / 2 ^ 24 :: n % 2 ^ 32 / 2 ^ 16 % 256 :: n % 2 ^ 32 / 2 ^ 8 % 256 ::
      n % 2 ^ 32 % 256 :: [] := rfl

theorem length_u32be (n : Nat) : (u32be n).length = 4 := rfl

theorem decode_short {α : Type} (deser : List Nat → Option α) (src : List Nat)
    (h : src.length < 4) : TunnelCodec.decode deser src = (.ok none, src) := by
  match src with
  | [] => rfl
  | [_] => rfl
  | [_, _] => rfl
  | [_, _, _] => rfl
  | _ :: _ :: _ :: _ :: _ => simp at h; omega

theorem decode_cons4 {α : Type} (deser : List Nat → Option α) (b0 b1 b2 b3 : Nat)
    (rest : List Nat) :
    TunnelCodec.decode deser (b0 :: b1 :: b2 :: b3 :: rest) =
      (if u32beVal b0 b1 b2 b3 > MAX_FRAME_SIZE then
        (.error (.FrameTooLarge (u32beVal b0 b1 b2 b3)), b0 :: b1 :: b2 :: b3 :: rest)
      else if rest.length < u32beVal b0 b1 b2 b3 then (.ok none, b0 :: b1 :: b2 :: b3 :: rest)
      else
        match deser (rest.take (u32beVal b0 b1 b2 b3)) with
        | some m => (.ok (some m), rest.drop (u32beVal b0 b1 b2 b3))
        | none => (.error .Json, rest.drop (u32beVal b0 b1 b2 b3))) := rfl

theorem decode_append_frame {α : Type} (deser : List Nat → Option α) (p extra : List Nat)
    (hlen : p.length ≤ MAX_FRAME_SIZE) :
    TunnelCodec.decode deser (u32be p.length ++ p ++ extra) =
      (match deser p with
       | some m => (Except.ok (some m), extra)
       | none => (Except.error CodecError.Json, extra)) := by
  have h32 : p.length < 2 ^ 32 := by
    have : MAX_FRAME_SIZE < 2 ^ 32 := by decide
    omega
  simp only [u32be_cons, List.cons_append, List.nil_append]
  rw [decode_cons4, u32beVal_u32be _ h32]
  rw [if_neg (by omega)]
  rw [if_neg (by simp only [List.length_append, Nat.not_lt]; omega)]
  rw [List.take_left, List.drop_left]

theorem decode_frame_take {α : Type} (deser : List Nat → Option α) (p : List Nat)
    (hlen : p.length ≤ MAX_FRAME_SIZE) (k : Nat) (hk : k < 4 + p.length) :
    TunnelCodec.decode deser ((u32be p.length ++ p).take k) =
      (.ok none, (u32be p.length ++ p).take k) := by
  by_cases h4 : k < 4
  · exact decode_short deser _ (by simp [length_u32be]; omega)
  · have h32 : p.length < 2 ^ 32 := by
      have : MAX_FRAME_SIZE < 2 ^ 32 := by decide
      omega
    have htake : (u32be p.length ++ p).take k = u32be p.length ++ p.take (k - 4) := by
      rw [List.take_append_eq_append_take, length_u32be,
        List.take_of_length_le (by rw [length_u32be]; omega)]
    rw [htake]
    simp only [u32be_cons, List.cons_append, List.nil_append]
    rw [decode_cons4, u32beVal_u32be _ h32]
    rw [if_neg (by omega)]
    rw [if_pos (by rw [List.length_take]; omega)]

theorem encodeClient_nil (m : ClientMessage) (h : (serializeClient m).length ≤ MAX_FRAME_SIZE) :
    encodeClient m [] = .ok (frameOfClient m) := by
  simp only [encodeClient, TunnelCodec.encode]
  rw [if_neg (by omega)]
  simp only [List.nil_append, frameOfClient]

theorem encodeServer_nil (m : ServerMessage) (h : (serializeServer m).length ≤ MAX_FRAME_SIZE) :
    encodeServer m [] = .ok (frameOfServer m) := by
  simp only [encodeServer, TunnelCodec.encode]
  rw [if_neg (by omega)]
  simp only [List.nil_append, frameOfServer]

theorem decodeClient_frame (m : ClientMessage) (hm : wfClient m = true)
    (h : (serializeClient m).length ≤ MAX_FRAME_SIZE) (extra : List Nat) :
    decodeClient (frameOfClient m ++ extra) = (.ok (some m), extra) := by
  rw [decodeClient, frameOfClient, decode_append_frame deserializeClient _ extra h,
    deserializeClient_serializeClient m hm]

theorem decodeServer_frame (m : ServerMessage) (hm : wfServer m = true)
    (h : (serializeServer m).length ≤ MAX_FRAME_SIZE) (extra : List Nat) :
    decodeServer (frameOfServer m ++ extra) = (.ok (some m), extra) := by
  rw [decodeServer, frameOfServer, decode_append_frame deserializeServer _ extra h,
    deserializeServer_serializeServer m hm]


/-! ### Claims -/

/-- Claim C7 — the frame codec round-trips: for every `ClientMessage`
and every `ServerMessage` (well-formed, strings within the ASCII scope
of the JSON model) whose serialization fits the 16 MiB limit, encoding
into an empty buffer and decoding the result yields exactly the message
and leaves the buffer empty. -/
theorem C7_codec_roundtrip (m : ClientMessage) (s : ServerMessage)
    (hm : wfClient m = true) (hs : wfServer s = true)
    (hml : (serializeClient m).length ≤ MAX_FRAME_SIZE)
    (hsl : (serializeServer s).length ≤ MAX_FRAME_SIZE) :
    (encodeClient m [] = .ok (frameOfClient m) ∧
      decodeClient (frameOfClient m) = (.ok (some m), [])) ∧
    (encodeServer s [] = .ok (frameOfServer s) ∧
      decodeServer (frameOfServer s) = (.ok (some s), [])) := by
  refine ⟨⟨encodeClient_nil m hml, ?_⟩, ⟨encodeServer_nil s hsl, ?_⟩⟩
  · have := decodeClient_frame m hm hml []
    rwa [List.append_nil] at this
  · have := decodeServer_frame s hs hsl []
    rwa [List.append_nil] at this

/-- Concrete instance of C7 at the empty-header, empty-body edge
cases. -/
theorem C7_codec_roundtrip_witness :
    (encodeClient (.HttpResponse 1 200 [] []) [] = .ok (frameOfClient (.HttpResponse 1 200 [] [])) ∧
      decodeClient (frameOfClient (.HttpResponse 1 200 [] [])) =
        (.ok (some (.HttpResponse 1 200 [] [])), [])) ∧
    (encodeServer (.HttpRequest 1 "GET" "/" [] []) [] = .ok (frameOfServer (.HttpRequest 1 "GET" "/" [] [])) ∧
      decodeServer (frameOfServer (.HttpRequest 1 "GET" "/" [] [])) =
        (.ok (some (.HttpRequest 1 "GET" "/" [] [])), [])) :=
  C7_codec_roundtrip (.HttpResponse 1 200 [] []) (.HttpRequest 1 "GET" "/" [] [])
    (by decide) (by decide) (by decide) (by decide)

/-- Claim C8 — decoding is streaming and split-safe: any strict prefix
of an encoded frame decodes to "need more" without consuming anything;
reassembling the split buffer decodes like the unsplit buffer; a
successful decode consumes exactly the frame and preserves all bytes
after it. -/
theorem C8_split_safety (m : ClientMessage) (hm : wfClient m = true)
    (hl : (serializeClient m).length ≤ MAX_FRAME_SIZE)
    (k : Nat) (hk : k < (frameOfClient m).length) (extra : List Nat) :
    decodeClient ((frameOfClient m).take k) = (.ok none, (frameOfClient m).take k) ∧
    decodeClient ((frameOfClient m).take k ++ (frameOfClient m).drop k) =
      decodeClient (frameOfClient m) ∧
    decodeClient (frameOfClient m ++ extra) = (.ok (some m), extra) := by
  refine ⟨?_, ?_, decodeClient_frame m hm hl extra⟩
  · have hk4 : k < 4 + (serializeClient m).length := by
      have : (frameOfClient m).length = 4 + (serializeClient m).length := by
        simp [frameOfClient, List.length_append, length_u32be]
      omega
    show TunnelCodec.decode deserializeClient ((frameOfClient m).take k) = _
    rw [frameOfClient]
    exact decode_frame_take deserializeClient (serializeClient m) hl k hk4
  · rw [List.take_append_drop]

/-- Concrete instance of C8: the first three bytes of a `Ping` frame
decode to "need more"; the full frame plus a trailing byte decodes to
the message and keeps the byte. -/
theorem C8_split_safety_witness :
    decodeClient ((frameOfClient (.Ping 7)).take 3) =
      (.ok none, (frameOfClient (.Ping 7)).take 3) ∧
    decodeClient ((frameOfClient (.Ping 7)).take 3 ++ (frameOfClient (.Ping 7)).drop 3) =
      decodeClient (frameOfClient (.Ping 7)) ∧
    decodeClient (frameOfClient (.Ping 7) ++ [9]) = (.ok (some (.Ping 7)), [9]) :=
  C8_split_safety (.Ping 7) (by decide) (by decide) 3 (by decide) [9]

/-- Claim C9 — the 16 MiB ceiling is enforced on both sides: `encode`
fails exactly when serialization fails or the payload exceeds the
limit, succeeding with the framed bytes otherwise; `decode` answers
`FrameTooLarge` for every buffer whose declared length exceeds the
limit, whatever the payload. -/
theorem C9_frame_ceiling {α : Type} (ser : α → Option (List Nat)) (item : α) (dst : List Nat)
    (deser : List Nat → Option α) (b0 b1 b2 b3 : Nat) (rest : List Nat)
    (hbig : u32beVal b0 b1 b2 b3 > MAX_FRAME_SIZE) :
    ((∃ e, TunnelCodec.encode ser item dst = .error e) ↔
      (ser item = none ∨ ∃ j, ser item = some j ∧ j.length > MAX_FRAME_SIZE)) ∧
    (∀ j, ser item = some j → j.length ≤ MAX_FRAME_SIZE →
      TunnelCodec.encode ser item dst = .ok (dst ++ u32be j.length ++ j)) ∧
    TunnelCodec.decode deser (b0 :: b1 :: b2 :: b3 :: rest) =
      (.error (.FrameTooLarge (u32beVal b0 b1 b2 b3)), b0 :: b1 :: b2 :: b3 :: rest) := by
  refine ⟨?_, ?_, ?_⟩
  · constructor
    · intro _
      match hser : ser item with
      | none => exact Or.inl rfl
      | some j =>
        by_cases hj : j.length > MAX_FRAME_SIZE
        · exact Or.inr ⟨j, rfl, hj⟩
        · exfalso
          obtain ⟨e, he⟩ := ‹∃ e, TunnelCodec.encode ser item dst = .error e›
          simp only [TunnelCodec.encode, hser, if_neg hj] at he
          exact Except.noConfusion he
    · intro hca
      rcases hca with hser | ⟨j, hser, hj⟩
      · exact ⟨.Json, by simp only [TunnelCodec.encode, hser]⟩
      · exact ⟨.FrameTooLarge j.length, by simp only [TunnelCodec.encode, hser, if_pos hj]⟩
  · intro j hser hj
    simp only [TunnelCodec.encode, hser, if_neg (show ¬ j.length > MAX_FRAME_SIZE by omega)]
  · rw [decode_cons4, if_pos hbig]

/-- Concrete instance of C9: the prefix `[1,0,0,1]` declares
16777217 > 16 MiB bytes and decodes to `FrameTooLarge`; `Ping 0`
encodes fine. -/
theorem C9_frame_ceiling_witness :
    ((∃ e, TunnelCodec.encode (fun x => some (serializeClient x)) (ClientMessage.Ping 0) [] = .error e) ↔
      ((fun x => some (serializeClient x)) (ClientMessage.Ping 0) = none ∨
        ∃ j, (fun x => some (serializeClient x)) (ClientMessage.Ping 0) = some j ∧
          j.length > MAX_FRAME_SIZE)) ∧
    (∀ j, (fun x => some (serializeClient x)) (ClientMessage.Ping 0) = some j →
      j.length ≤ MAX_FRAME_SIZE →
      TunnelCodec.encode (fun x => some (serializeClient x)) (ClientMessage.Ping 0) [] =
        .ok ([] ++ u32be j.length ++ j)) ∧
    TunnelCodec.decode deserializeClient (1 :: 0 :: 0 :: 1 :: [7, 7]) =
      (.error (.FrameTooLarge (u32beVal 1 0 0 1)), 1 :: 0 :: 0 :: 1 :: [7, 7]) :=
  C9_frame_ceiling (fun x => some (serializeClient x)) (ClientMessage.Ping 0) []
    deserializeClient 1 0 0 1 [7, 7] (by decide)

/-- Claim C10 — a payload deserialization failure does not break frame
alignment: a frame whose declared length is in range but whose payload
is not a valid message decodes to a JSON error with exactly that frame
consumed, and a well-formed frame following it in the same buffer still
decodes on the next call. -/
theorem C10_json_error_alignment (p : List Nat) (hp : p.length ≤ MAX_FRAME_SIZE)
    (hbad : deserializeClient p = none) (m2 : ClientMessage) (hm2 : wfClient m2 = true)
    (hl2 : (serializeClient m2).length ≤ MAX_FRAME_SIZE) :
    decodeClient (u32be p.length ++ p ++ frameOfClient m2) =
      (.error .Json, frameOfClient m2) ∧
    decodeClient (frameOfClient m2) = (.ok (some m2), []) := by
  constructor
  · show TunnelCodec.decode deserializeClient _ = _
    rw [decode_append_frame deserializeClient p _ hp, hbad]
  · have := decodeClient_frame m2 hm2 hl2 []
    rwa [List.append_nil] at this

/-- Concrete instance of C10: the two-byte payload `"XX"` is not valid
JSON for `ClientMessage`; a `Ping` frame after it still decodes. -/
theorem C10_json_error_alignment_witness :
    decodeClient (u32be ([88, 88] : List Nat).length ++ [88, 88] ++ frameOfClient (.Ping 3)) =
      (.error .Json, frameOfClient (.Ping 3)) ∧
    decodeClient (frameOfClient (.Ping 3)) = (.ok (some (.Ping 3)), []) :=
  C10_json_error_alignment [88, 88] (by decide) (by decide) (.Ping 3) (by decide) (by decide)


/-- Claim C1 (code bug) — stream ids are not process-wide unique: the
HTTP plane mints ids from its own counter (`HttpPlane.stream_id_counter`,
starting at 1) while the TCP plane uses the shared `StreamIdGenerator`
(also starting at 1), so the first `HttpRequest` frame and the first
`TcpConnect` frame of one process both carry stream id 1, contradicting
the claimed uniqueness (and `state.rs`'s own "shared across all planes"
doc comment). -/
theorem C1_stream_id_collision :
    mintTrace [Plane.http, Plane.tcp] initialCounters = [1, 1] ∧
    (mintStreamId Plane.http initialCounters).1 = (mintStreamId Plane.tcp initialCounters).1 := by
  decide

/-- Claim C2 (code bug) — negotiation leaks the DNS record when
registration fails: with subdomain `app` free at the availability check
but registered concurrently before `router.register` runs, a TCP tunnel
request allocates port 30000, creates DNS record `rec-1`, then fails
registration; the code releases the port and replies `TunnelDenied`,
but never deletes the record, so `dnsCreated` survives the failed
negotiation. -/
theorem C2_dns_leak_on_register_failure :
    handleRequestTunnel "tunnel.example.com" "app" .Tcp [] ["app"] (.ok 30000) (.ok "rec-1") =
      (.TunnelDenied "Registration failed: Subdomain already taken: app",
        ⟨some "rec-1", none, false⟩) ∧
    (handleRequestTunnel "tunnel.example.com" "app" .Tcp [] ["app"]
      (.ok 30000) (.ok "rec-1")).2.dnsCreated ≠ none := by
  decide

/-- Claim C3, counterexample — teardown does not resolve pending HTTP
response sinks: with stream 7 pending for tunnel `app`, the cleanup
path unregisters the route, deletes the DNS record — and leaves the
pending-response registry entry (and its live sender) in place, so the
waiting handler cannot observe channel closure; it will instead hit its
deadline, whose branch answers 504, not the claimed 502. -/
theorem C3_pending_sink_survives_teardown :
    7 ∈ (connectionTeardown (some "app") none
      ⟨[("app", some "r1")], ["r1"], [], [7]⟩).pendingResponses ∧
    (connectionTeardown (some "app") none
      ⟨[("app", some "r1")], ["r1"], [], [7]⟩) = ⟨[], [], [], [7]⟩ ∧
    awaitResponse .timedOut = (⟨504, [], strBytes "Tunnel response timeout"⟩, true) := by
  decide

/-- Claim C3, amended — control-plane teardown never touches the
pending-response registry; a pending request for the dead tunnel
therefore resolves through its 30-second deadline, answering 504
`Tunnel response timeout` (removing the sink then); only a request
whose sink channel actually closes gets 502 `Tunnel disconnected`. -/
theorem C3_teardown_preserves_pending (sub : Option String) (port : Option Nat)
    (st : ServerShared) :
    (connectionTeardown sub port st).pendingResponses = st.pendingResponses ∧
    awaitResponse .timedOut = (⟨504, [], strBytes "Tunnel response timeout"⟩, true) ∧
    awaitResponse .sinkClosed = (⟨502, [], strBytes "Tunnel disconnected"⟩, false) := by
  refine ⟨?_, rfl, rfl⟩
  rw [connectionTeardown.eq_def]
  rcases sub with _ | sb
  · rcases port with _ | p <;> simp
  · rcases hlr : lookupRoute st.routes sb with _ | d
    · rcases port with _ | p <;> simp [hlr]
    · rcases d with _ | rid <;> rcases port with _ | p <;> simp [hlr]


theorem natToCharsCore_length_le : ∀ (fuel n k : Nat), 1 ≤ k → n < 10 ^ k →
    (natToCharsCore fuel n).length ≤ k := by
  intro fuel
  induction fuel with
  | zero => intro n k h1 _; simp [natToCharsCore_zero]
  | succ fuel ih =>
    intro n k h1 h2
    rw [natToCharsCore_succ]
    by_cases h10 : n < 10
    · rw [if_pos h10]; simpa using h1
    · rw [if_neg h10]
      have hk2 : 2 ≤ k := by
        by_contra hcon
        have hk1 : k = 1 := by omega
        rw [hk1] at h2
        simp at h2
        omega
      have hdiv : n / 10 < 10 ^ (k - 1) := by
        rw [Nat.div_lt_iff_lt_mul (by norm_num)]
        calc n < 10 ^ k := h2
          _ = 10 ^ (k - 1) * 10 := by
            rw [← pow_succ]
            congr 1
            omega
      have := ih (n / 10) (k - 1) (by omega) hdiv
      simp only [List.length_append, List.length_singleton]
      omega

theorem natChars_length_le (n k : Nat) (h1 : 1 ≤ k) (h : n < 10 ^ k) :
    (natChars n).length ≤ k :=
  natToCharsCore_length_le (n + 1) n k h1 h

theorem serializeClient_ping_length (t : Nat) (ht : t < 2 ^ 64) :
    (serializeClient (.Ping t)).length ≤ MAX_FRAME_SIZE := by
  have h20 : t < 10 ^ 20 := lt_of_lt_of_le ht (by norm_num)
  have hn := natChars_length_le t 20 (by norm_num) h20
  have : (serializeClient (.Ping t)).length = 28 + (natChars t).length := by
    simp only [serializeClient, toBytes, List.length_map, jsonClient, List.length_append,
      List.length_cons, List.length_nil]
    omega
  rw [this]
  have hmax : (MAX_FRAME_SIZE : Nat) = 16777216 := rfl
  rw [hmax]
  omega

theorem drainFrames_succ (fuel : Nat) (buf : List Nat) (acc : List ConnEvent) :
    drainFrames (fuel + 1) buf acc =
      match TunnelCodec.decode deserializeClient buf with
      | (.ok (some m), buf1) => drainFrames fuel buf1 (acc ++ [.dispatched m])
      | (.ok none, buf1) => (acc, buf1)
      | (.error e, buf1) => (acc ++ [.decodeError e], buf1) := rfl

theorem drainFrames_of_error {buf buf1 : List Nat} {e : CodecError}
    (h : TunnelCodec.decode deserializeClient buf = (.error e, buf1))
    (fuel : Nat) (hf : 1 ≤ fuel) (acc : List ConnEvent) :
    drainFrames fuel buf acc = (acc ++ [.decodeError e], buf1) := by
  match fuel, hf with
  | fuel + 1, _ => rw [drainFrames_succ, h]

theorem drainFrames_of_needMore {buf buf1 : List Nat}
    (h : TunnelCodec.decode deserializeClient buf = (.ok none, buf1))
    (fuel : Nat) (hf : 1 ≤ fuel) (acc : List ConnEvent) :
    drainFrames fuel buf acc = (acc, buf1) := by
  match fuel, hf with
  | fuel + 1, _ => rw [drainFrames_succ, h]

theorem drainFrames_of_dispatch {buf buf1 : List Nat} {m : ClientMessage}
    (h : TunnelCodec.decode deserializeClient buf = (.ok (some m), buf1))
    (fuel : Nat) (hf : 1 ≤ fuel) (acc : List ConnEvent) :
    drainFrames fuel buf acc = drainFrames (fuel - 1) buf1 (acc ++ [.dispatched m]) := by
  match fuel, hf with
  | fuel + 1, _ => simp only [drainFrames_succ, h, Nat.add_sub_cancel]

theorem connReadLoop_nil (buf : List Nat) (acc : List ConnEvent) :
    connReadLoop [] buf acc = acc := rfl

theorem connReadLoop_cons (chunk : List Nat) (rest : List (List Nat)) (buf : List Nat)
    (acc : List ConnEvent) :
    connReadLoop (chunk :: rest) buf acc =
      connReadLoop rest (drainFrames ((buf ++ chunk).length + 1) (buf ++ chunk) acc).2
        (drainFrames ((buf ++ chunk).length + 1) (buf ++ chunk) acc).1 := rfl

theorem decode_empty : TunnelCodec.decode deserializeClient ([] : List Nat) = (.ok none, []) := rfl

/-- Claim C4, counterexample — protocol violations are not fatal: a
connection that sends an in-range frame with garbage payload (`"XX"`)
followed by two `Ping` frames gets the decode error logged, keeps its
connection, and has both later pings dispatched; likewise an
`HttpResponse` sent before any `RequestTunnel` (out of phase) is
dispatched normally instead of tearing the connection down. -/
theorem C4_dispatched_after_violation :
    runConn [u32be 2 ++ [88, 88] ++ frameOfClient (.Ping 5), frameOfClient (.Ping 6)] =
      [.decodeError .Json, .dispatched (.Ping 5), .dispatched (.Ping 6)] ∧
    runConn [frameOfClient (.HttpResponse 9 200 [] [])] =
      [.dispatched (.HttpResponse 9 200 [] [])] := by
  decide

/-- Claim C4, amended — a frame decode failure aborts only the current
decode batch: the offending frame is consumed, the error logged, and
the read loop continues; a message received afterwards (here a `Ping`)
is still dispatched.  Out-of-phase messages are not rejected either (an
`HttpResponse` before any negotiation is dispatched normally).  The
connection is torn down only when the transport reaches EOF or errors. -/
theorem C4_decode_error_not_fatal (bad : List Nat) (hbad : deserializeClient bad = none)
    (hlen : bad.length ≤ MAX_FRAME_SIZE) (t : Nat) (ht : t < 2 ^ 64) :
    runConn [u32be bad.length ++ bad, frameOfClient (.Ping t)] =
      [.decodeError .Json, .dispatched (.Ping t)] ∧
    runConn [frameOfClient (.HttpResponse 9 200 [] [])] =
      [.dispatched (.HttpResponse 9 200 [] [])] := by
  constructor
  · have hw : wfClient (.Ping t) = true := by
      simp only [wfClient, decide_eq_true_eq]
      exact ht
    have hlp : (serializeClient (.Ping t)).length ≤ MAX_FRAME_SIZE :=
      serializeClient_ping_length t ht
    have hdec1 : TunnelCodec.decode deserializeClient (u32be bad.length ++ bad) =
        (.error .Json, []) := by
      have h := decode_append_frame deserializeClient bad [] hlen
      rw [List.append_nil] at h
      rw [h]
      simp only [hbad]
    have hdec2 : TunnelCodec.decode deserializeClient (frameOfClient (.Ping t)) =
        (.ok (some (.Ping t)), []) := by
      have h := decodeClient_frame (.Ping t) hw hlp []
      rw [List.append_nil] at h
      exact h
    have hfr4 : 4 ≤ (frameOfClient (.Ping t)).length := by
      simp [frameOfClient, List.length_append, length_u32be]
    rw [runConn, connReadLoop_cons]
    simp only [List.nil_append]
    rw [drainFrames_of_error hdec1 _ (Nat.le_add_left 1 _) []]
    rw [connReadLoop_cons]
    simp only [List.nil_append]
    rw [drainFrames_of_dispatch hdec2 _ (Nat.le_add_left 1 _) [ConnEvent.decodeError CodecError.Json]]
    rw [drainFrames_of_needMore decode_empty _ (by omega) _]
    rw [connReadLoop_nil]
    rfl
  · decide


theorem rust_alnum_ne_hyphen {c : Char} (h : rustIsAlphanumeric c = true) : c ≠ '-' := by
  intro hc
  rw [hc] at h
  simp [rustIsAlphanumeric] at h

theorem ascii_class_split {c : Char} (h : asciiSubdomainChar c = true) (hne : c ≠ '-') :
    rustIsAlphanumeric c = true := by
  simp only [asciiSubdomainChar, Bool.or_eq_true, decide_eq_true_eq] at h
  rcases h with (h | h) | h
  · simp [rustIsAlphanumeric, h]
  · simp [rustIsAlphanumeric, h]
  · exact absurd h hne

theorem class_eq (c : Char) :
    (rustIsAlphanumeric c || decide (c = '-')) = asciiSubdomainChar c := by
  simp [rustIsAlphanumeric, asciiSubdomainChar, Bool.or_assoc]

theorem is_valid_subdomain_iff (s : String) :
    is_valid_subdomain s = true ↔
      (1 ≤ s.data.length ∧ s.data.length ≤ 63 ∧
        (∀ c ∈ s.data, asciiSubdomainChar c = true) ∧
        s.data.head? ≠ some '-' ∧ s.data.getLast? ≠ some '-') := by
  rw [is_valid_subdomain]
  cases hl : s.data with
  | nil => simp
  | cons c cs =>
    have hne : c :: cs ≠ [] := List.cons_ne_nil c cs
    rw [List.getLast?_eq_getLast _ hne]
    have hdmem : (c :: cs).getLast hne ∈ c :: cs := List.getLast_mem hne
    by_cases h63 : (c :: cs).length > 63
    · simp only [List.length_cons] at h63
      rw [if_pos (by simp only [List.isEmpty_cons, Bool.false_or, decide_eq_true_eq,
        List.length_cons]; omega)]
      simp only [Bool.false_eq_true, false_iff]
      rintro ⟨_, hle, _⟩
      simp only [List.length_cons] at hle
      omega
    · simp only [List.length_cons] at h63
      rw [if_neg (by simp only [List.isEmpty_cons, Bool.false_or, decide_eq_true_eq,
        List.length_cons]; omega)]
      by_cases hh : rustIsAlphanumeric c = true
      · rw [if_neg (by simp [hh])]
        by_cases hg : rustIsAlphanumeric ((c :: cs).getLast hne) = true
        · rw [if_neg (by simp [hg])]
          simp only [List.all_eq_true, class_eq, List.head?_cons]
          constructor
          · intro hall
            refine ⟨by simp, by simp only [List.length_cons]; omega, hall, ?_, ?_⟩
            · intro hcon
              injection hcon with hcon
              exact rust_alnum_ne_hyphen hh hcon
            · intro hcon
              injection hcon with hcon
              exact rust_alnum_ne_hyphen hg hcon
          · rintro ⟨_, _, hall, _, _⟩
            exact hall
        · rw [if_pos (by simp [hg])]
          simp only [Bool.false_eq_true, false_iff]
          rintro ⟨_, _, hall, _, hlast⟩
          exact hg (ascii_class_split (hall _ hdmem) (fun hc => hlast (by rw [hc])))
      · rw [if_pos (by simp [hh])]
        simp only [Bool.false_eq_true, false_iff]
        rintro ⟨_, _, hall, hhead, _⟩
        exact hh (ascii_class_split (hall c (List.mem_cons_self c cs))
          (fun hc => hhead (by rw [hc, List.head?_cons])))

/-- Claim C5, counterexample — the server accepts subdomains outside
the spec's `[a-z0-9-]` class: `"A"` passes `is_valid_subdomain` (Rust's
`char::is_alphanumeric` accepts uppercase), fails the spec's §3 rule,
and a `RequestTunnel` for `"A"` is answered with `TunnelEstablished`,
not the claimed `TunnelDenied`. -/
theorem C5_uppercase_subdomain_accepted :
    is_valid_subdomain "A" = true ∧ specValidSubdomain "A" = false ∧
    (handleRequestTunnel "b.com" "A" .Http [] [] (.ok 0) (.ok "r")).1 =
      .TunnelEstablished "A" "https://A.b.com" none := by
  decide

/-- Claim C5, amended — on ASCII input (the embedding's scope; Rust's
validator also admits non-ASCII Unicode alphanumerics), the server
accepts `s` as a tunnel subdomain iff `s` is 1–63 characters from
`[a-zA-Z0-9-]` with no leading or trailing hyphen — the letter class is
case-insensitive, unlike the spec's `[a-z0-9-]`; any other string in
`RequestTunnel` is rejected with `TunnelDenied` reason
"Invalid subdomain format". -/
theorem C5_subdomain_validation (s : String) (_hascii : ∀ c ∈ s.data, c.toNat < 128) :
    (is_valid_subdomain s = true ↔
      (1 ≤ s.data.length ∧ s.data.length ≤ 63 ∧
        (∀ c ∈ s.data, asciiSubdomainChar c = true) ∧
        s.data.head? ≠ some '-' ∧ s.data.getLast? ≠ some '-')) ∧
    (∀ base tt routesC routesR alloc dns, is_valid_subdomain s = false →
      (handleRequestTunnel base s tt routesC routesR alloc dns).1 =
        .TunnelDenied "Invalid subdomain format") := by
  refine ⟨is_valid_subdomain_iff s, ?_⟩
  intro base tt routesC routesR alloc dns h
  simp [handleRequestTunnel, h]

/-- Concrete instance of C5: `my-app` is characterized correctly, and a
request for `-bad` is denied with the exact reason string. -/
theorem C5_subdomain_validation_witness :
    (is_valid_subdomain "my-app" = true ↔
      (1 ≤ "my-app".data.length ∧ "my-app".data.length ≤ 63 ∧
        (∀ c ∈ "my-app".data, asciiSubdomainChar c = true) ∧
        "my-app".data.head? ≠ some '-' ∧ "my-app".data.getLast? ≠ some '-')) ∧
    (handleRequestTunnel "b.com" "-bad" .Http [] [] (.ok 0) (.ok "r")).1 =
      .TunnelDenied "Invalid subdomain format" :=
  ⟨(C5_subdomain_validation "my-app" (by decide)).1,
   (C5_subdomain_validation "-bad" (by decide)).2 "b.com" .Http [] [] (.ok 0) (.ok "r")
     (by decide)⟩

theorem extract_subdomain_none {base h : String}
    (hnsuf : ¬ (('.' :: base.data).isSuffixOf (h.data.takeWhile (fun c => !(c == ':'))) = true)) :
    extract_subdomain base (some h) = none := by
  simp only [extract_subdomain]
  by_cases hbs : base.data.isSuffixOf (h.data.takeWhile (fun c => !(c == ':'))) = true
  · rw [if_neg (by simp [hbs])]
    rw [stripSuffixOpt, if_neg hnsuf]
  · rw [if_pos (by simp [hbs])]

theorem not_dotsuffix_self (base : String) :
    ¬ (('.' :: base.data).isSuffixOf base.data = true) := by
  intro hsuf
  have hlen := (List.isSuffixOf_iff_suffix.mp hsuf).length_le
  simp only [List.length_cons] at hlen
  omega

/-- Claim C6 — the HTTP ingress handler maps each condition to the
specified response: missing Host, a host without the `.base_domain`
suffix, or a bare base domain (no subdomain label) give 400; an
unrouted subdomain gives 404 with the subdomain named; a failed send
gives 502 "Tunnel connection lost" with the pending sink removed; a
timeout gives 504 "Tunnel response timeout" with the sink removed; a
closed sink gives 502 "Tunnel disconnected"; a delivered response is
reproduced verbatim. -/
theorem C6_http_ingress_responses (base h sub : String) (routes : List String)
    (sendOut : SendOutcome) (awaitOut : AwaitOutcome)
    (status : Nat) (hs : List (String × String)) (body : List Nat) :
    (handle_request base none routes sendOut awaitOut =
      (⟨400, [], strBytes "Invalid or missing subdomain"⟩, false)) ∧
    (¬ (('.' :: base.data).isSuffixOf (h.data.takeWhile (fun c => !(c == ':'))) = true) →
      handle_request base (some h) routes sendOut awaitOut =
        (⟨400, [], strBytes "Invalid or missing subdomain"⟩, false)) ∧
    (h.data.takeWhile (fun c => !(c == ':')) = base.data →
      handle_request base (some h) routes sendOut awaitOut =
        (⟨400, [], strBytes "Invalid or missing subdomain"⟩, false)) ∧
    (extract_subdomain base (some h) = some sub → routes.contains sub = false →
      handle_request base (some h) routes sendOut awaitOut =
        (⟨404, [], strBytes ("Tunnel not found for: " ++ sub)⟩, false)) ∧
    (extract_subdomain base (some h) = some sub → routes.contains sub = true →
      handle_request base (some h) routes .channelClosed awaitOut =
        (⟨502, [], strBytes "Tunnel connection lost"⟩, true)) ∧
    (extract_subdomain base (some h) = some sub → routes.contains sub = true →
      handle_request base (some h) routes .sent .timedOut =
        (⟨504, [], strBytes "Tunnel response timeout"⟩, true)) ∧
    (extract_subdomain base (some h) = some sub → routes.contains sub = true →
      handle_request base (some h) routes .sent .sinkClosed =
        (⟨502, [], strBytes "Tunnel disconnected"⟩, false)) ∧
    (extract_subdomain base (some h) = some sub → routes.contains sub = true →
      handle_request base (some h) routes .sent (.delivered status hs body) =
        (⟨status, hs, body⟩, false)) := by
  refine ⟨rfl, ?_, ?_, ?_, ?_, ?_, ?_, ?_⟩
  · intro hnsuf
    simp only [handle_request, extract_subdomain_none hnsuf]
  · intro heq
    have hnsuf : ¬ (('.' :: base.data).isSuffixOf
        (h.data.takeWhile (fun c => !(c == ':'))) = true) := by
      rw [heq]
      exact not_dotsuffix_self base
    simp only [handle_request, extract_subdomain_none hnsuf]
  · intro hx hroutes
    simp only [handle_request, hx, hroutes, Bool.not_false, if_true]
  · intro hx hroutes
    simp only [handle_request, hx, hroutes, Bool.not_true, Bool.false_eq_true, if_false]
  · intro hx hroutes
    simp only [handle_request, hx, hroutes, Bool.not_true, Bool.false_eq_true, if_false]
    rfl
  · intro hx hroutes
    simp only [handle_request, hx, hroutes, Bool.not_true, Bool.false_eq_true, if_false]
    rfl
  · intro hx hroutes
    simp only [handle_request, hx, hroutes, Bool.not_true, Bool.false_eq_true, if_false]
    rfl

/-- Concrete instance of C6: host `app.t.ex` with routed tunnel `app`
times out to 504; a request without Host gets 400. -/
theorem C6_http_ingress_responses_witness :
    handle_request "t.ex" (some "app.t.ex") ["app"] .sent .timedOut =
      (⟨504, [], strBytes "Tunnel response timeout"⟩, true) ∧
    handle_request "t.ex" none ["app"] .sent .timedOut =
      (⟨400, [], strBytes "Invalid or missing subdomain"⟩, false) ∧
    handle_request "t.ex" (some "app.t.ex") [] .sent .timedOut =
      (⟨404, [], strBytes ("Tunnel not found for: " ++ "app")⟩, false) :=
  ⟨(C6_http_ingress_responses "t.ex" "app.t.ex" "app" ["app"] .sent .timedOut 200 [] []).2.2.2.2.2.1
      (by decide) (by decide),
   (C6_http_ingress_responses "t.ex" "app.t.ex" "app" ["app"] .sent .timedOut 200 [] []).1,
   (C6_http_ingress_responses "t.ex" "app.t.ex" "app" [] .sent .timedOut 200 [] []).2.2.2.1
      (by decide) (by decide)⟩

/-- Concrete instance of C4: the bad two-byte payload is consumed with
a decode error and the following `Ping` is still dispatched. -/
theorem C4_decode_error_not_fatal_witness :
    runConn [u32be ([88, 88] : List Nat).length ++ [88, 88], frameOfClient (.Ping 9)] =
      [.decodeError .Json, .dispatched (.Ping 9)] ∧
    runConn [frameOfClient (.HttpResponse 9 200 [] [])] =
      [.dispatched (.HttpResponse 9 200 [] [])] :=
  C4_decode_error_not_fatal [88, 88] (by decide) (by decide) 9 (by decide)

end Siphon
